import Mathlib

/-!
Verification of the Partitioned Authority Sessions (PAN) repository.

This development gives a shallow embedding, in Lean 4, of the security core of
the repository: the canonical-message codec (`crypto.ts`, `crypto-service.ts`
and the legacy `crypto-service` copy), the two interaction-proof validators
(server-side `validator.ts` and the signing-iframe `proof-validator.ts`), the
signing-iframe `handleSign` operation, the `InteractionTracker` matching pool,
the Redis/in-memory key-value store (`store.ts`) with its nonce and session
operations, and the server-side verification chain `verifyRequest`
(`server.ts`).

Modelling conventions, applied uniformly:
- JavaScript numbers appear in the embedded code only in comparisons and in
  decimal re-serialisation; they are modelled as `Int` (all repository
  constants and counterexamples are integral).
- Wall-clock reads (`Date.now()`) become an explicit `now : Int` argument.
- External cryptographic primitives (`crypto.subtle.sign` / `verify`) are
  opaque oracles passed as function arguments; nothing is assumed about them.
- The async in-memory/Redis store is modelled as explicit state passing over
  association lists; Redis primitives (`setex`, `get`, `getdel`) are modelled
  by their documented TTL key-value semantics, the in-memory branch is
  modelled from the repository's own fallback code.
-/

namespace PAN

/-- JSON-like values (null, boolean, number, string, array, object), the value
space over which the repository's canonicalization functions operate. Object
fields are kept in insertion order, as JavaScript objects are. `undefined` is
identified with `null`, which is exactly how both canonicalizers render it.
Numbers are modelled as integers (see the file header). -/
inductive Json where
  | null : Json
  | bool (b : Bool) : Json
  | num (n : Int) : Json
  | str (s : String) : Json
  | arr (items : List Json) : Json
  | obj (fields : List (String × Json)) : Json

/-- Lowercase hexadecimal digit, used by the JSON string escaper. -/
def hexDigit (k : Nat) : Char :=
  if k < 10 then Char.ofNat (48 + k) else Char.ofNat (87 + k)

/-- Four-digit lowercase hexadecimal rendering of a code point. -/
def hex4 (n : Nat) : String :=
  String.mk [hexDigit (n / 4096 % 16), hexDigit (n / 256 % 16),
             hexDigit (n / 16 % 16), hexDigit (n % 16)]

/-- Escape one character the way `JSON.stringify` quotes string characters. -/
def escapeJsonChar (c : Char) : String :=
  if c = '"' then "\\\""
  else if c = '\\' then "\\\\"
  else if c = '\x08' then "\\b"
  else if c = '\x0c' then "\\f"
  else if c = '\n' then "\\n"
  else if c = '\r' then "\\r"
  else if c = '\t' then "\\t"
  else if c.toNat < 32 then "\\u" ++ hex4 c.toNat
  else String.singleton c

/-- Model of `JSON.stringify` on a string value (quotation). Both sides of the
system quote strings and object keys through `JSON.stringify`, so one shared
model is used. -/
def jsonQuote (s : String) : String :=
  "\"" ++ String.join (s.data.map escapeJsonChar) ++ "\""

/-- Model of `JSON.stringify` on a number (decimal rendering; integers only,
see the file header). -/
def jsonNum (n : Int) : String := toString n

/-- Lexicographic strict comparison of character lists, the comparison the
JavaScript default `Array.prototype.sort()` applies to the key strings. -/
def listLtChar : List Char → List Char → Bool
  | [], [] => false
  | [], _ :: _ => true
  | _ :: _, [] => false
  | a :: as, b :: bs =>
      if a < b then true else if b < a then false else listLtChar as bs

/-- Strict lexicographic order on strings. -/
def strLt (a b : String) : Bool := listLtChar a.data b.data

/-- Lexicographic order on strings (total order used for key sorting). -/
def strLe (a b : String) : Bool := !(strLt b a)

/-- Key-ordering relation on object fields: compare the key strings. -/
def keyLE {α : Type} (a b : String × α) : Prop := strLe a.1 b.1 = true

/-- Strict key order on object fields. -/
def keyLT {α : Type} (a b : String × α) : Prop := strLt a.1 b.1 = true

instance {α : Type} : DecidableRel (keyLE (α := α)) :=
  fun a b => inferInstanceAs (Decidable (strLe a.1 b.1 = true))

/-- Sort object fields by key. The source sorts the key array
(`Object.keys(obj).sort()`) and then looks each key up; for a JavaScript
object (whose keys are distinct) this is the same as sorting the (key, value)
pairs by key, which is what we do here. -/
def sortFields {α : Type} (fields : List (String × α)) : List (String × α) :=
  fields.insertionSort keyLE

/-- Look up an association-list entry by key, first match wins (JavaScript
object property access `obj[key]`; keys of a JavaScript object are distinct,
so first match is the only match). -/
def lookupField {α : Type} (k : String) (l : List (String × α)) : Option α :=
  (l.find? (fun kv => kv.1 == k)).map (fun kv => kv.2)

namespace Crypto

mutual

/-- Embedding of `canonicalize` from `api-server/src/crypto.ts` (the
verifier-side copy): null/undefined map to "null", primitives render via
`JSON.stringify`, arrays preserve element order, objects are rendered with
keys sorted lexicographically at every nesting level.

The source sorts the key array (`Object.keys(obj).sort()`) and then renders
`JSON.stringify(key) + ":" + canonicalize(obj[key])` for each key in sorted
order. Rendering a field does not change its key and the keys of a
JavaScript object are distinct, so rendering all fields first and then
sorting the (key, rendered value) pairs by key — as done here to obtain a
structurally recursive function — emits exactly the same field list. -/
def canonicalize : Json → String
  | .null => "null"
  | .bool b => if b then "true" else "false"
  | .num n => jsonNum n
  | .str s => jsonQuote s
  | .arr items => "[" ++ String.intercalate "," (canonList items) ++ "]"
  | .obj fields =>
      let rendered := canonFields fields
      "\x7b" ++ String.intercalate ","
        ((sortFields rendered).map (fun kv => jsonQuote kv.1 ++ ":" ++ kv.2)) ++ "\x7d"

/-- Canonicalization of array elements, in order. -/
def canonList : List Json → List String
  | [] => []
  | j :: rest => canonicalize j :: canonList rest

/-- Canonicalization of the value of each object field, keeping keys. -/
def canonFields : List (String × Json) → List (String × String)
  | [] => []
  | (k, v) :: rest => (k, canonicalize v) :: canonFields rest

end

/-- Embedding of `createCanonicalMessage` from `api-server/src/crypto.ts`:
`canonicalize(action) + "|" + canonicalize(proof) + "|" + nonce`. -/
def createCanonicalMessage (action proof : Json) (nonce : String) : String :=
  canonicalize action ++ "|" ++ canonicalize proof ++ "|" ++ nonce

end Crypto

namespace CryptoService

mutual

/-- Embedding of `canonicalize` from the signer-side `crypto-service` module
(the copy whose header reads "RFC 8785-like JSON canonicalization"). The
TypeScript source of this function is textually identical to the copy in
`api-server/src/crypto.ts`; it is embedded separately (same modelling
conventions as `Crypto.canonicalize`), exactly because claim C2 is about the
independent copies agreeing. -/
def canonicalize : Json → String
  | .null => "null"
  | .bool b => if b then "true" else "false"
  | .num n => jsonNum n
  | .str s => jsonQuote s
  | .arr items => "[" ++ String.intercalate "," (canonList items) ++ "]"
  | .obj fields =>
      let rendered := canonFields fields
      "\x7b" ++ String.intercalate ","
        ((sortFields rendered).map (fun kv => jsonQuote kv.1 ++ ":" ++ kv.2)) ++ "\x7d"

/-- Canonicalization of array elements, in order (signer-side copy). -/
def canonList : List Json → List String
  | [] => []
  | j :: rest => canonicalize j :: canonList rest

/-- Canonicalization of object-field values, keeping keys (signer copy). -/
def canonFields : List (String × Json) → List (String × String)
  | [] => []
  | (k, v) :: rest => (k, canonicalize v) :: canonFields rest

end

/-- Embedding of `createCanonicalMessage` from the signer-side
`crypto-service` module (recursive-canonicalization variant). -/
def createCanonicalMessage (action proof : Json) (nonce : String) : String :=
  canonicalize action ++ "|" ++ canonicalize proof ++ "|" ++ nonce

end CryptoService

namespace CryptoServiceLegacy

/-- Model of `Object.keys` restricted to the values this module receives:
the repository calls `Object.keys(action as object)` with object-typed
`action`/`proof` values only. -/
def keysOf : Json → List String
  | .obj fields => fields.map Prod.fst
  | _ => []

/-- Sort a list of key names, as `Object.keys(x).sort()` does. -/
def sortKeys (ks : List String) : List String :=
  ks.insertionSort (fun a b => strLe a b = true)

mutual

/-- Model of `JSON.stringify(value, propertyList)` with an array replacer, as
used by the legacy `crypto-service` copy (`createCanonicalMessage` built from
`JSON.stringify(action, Object.keys(action as object).sort())`). Per the
ECMAScript serialization algorithm, when the replacer is an array the
resulting property list `ks` is used as the key list for EVERY object
encountered, at every nesting depth: keys are emitted in `ks` order and keys
of nested objects that are not in `ks` are dropped; array elements are
serialized unconditionally. Here every field value is rendered and the
property list then selects from the rendered fields, which emits exactly the
serialization the algorithm produces. -/
def stringifyWith (ks : List String) : Json → String
  | .null => "null"
  | .bool b => if b then "true" else "false"
  | .num n => jsonNum n
  | .str s => jsonQuote s
  | .arr items => "[" ++ String.intercalate "," (stringifyList ks items) ++ "]"
  | .obj fields =>
      let rendered := stringifyFields ks fields
      "\x7b" ++ String.intercalate ","
        (ks.filterMap (fun k =>
          (lookupField k rendered).map (fun rv => jsonQuote k ++ ":" ++ rv))) ++ "\x7d"

/-- Serialize array elements under a property list. -/
def stringifyList (ks : List String) : List Json → List String
  | [] => []
  | j :: rest => stringifyWith ks j :: stringifyList ks rest

/-- Serialize each object-field value under a property list, keeping keys. -/
def stringifyFields (ks : List String) :
    List (String × Json) → List (String × String)
  | [] => []
  | (k, v) :: rest => (k, stringifyWith ks v) :: stringifyFields ks rest

end

/-- Embedding of `createCanonicalMessage` from the legacy signer-side
`crypto-service` copy:
`JSON.stringify(action, Object.keys(action as object).sort()) + "|" +
JSON.stringify(proof, Object.keys(proof as object).sort()) + "|" + nonce`. -/
def createCanonicalMessage (action proof : Json) (nonce : String) : String :=
  stringifyWith (sortKeys (keysOf action)) action ++ "|" ++
    stringifyWith (sortKeys (keysOf proof)) proof ++ "|" ++ nonce

end CryptoServiceLegacy

/-- One sampled point of pointer motion (`TrajectoryPoint` in `types.ts`). -/
structure TrajectoryPoint where
  x : Int
  y : Int
  timestamp : Int
deriving DecidableEq, Repr

/-- Pointer position recorded with an interaction. -/
structure Position where
  x : Int
  y : Int
deriving DecidableEq, Repr

/-- Wire form of an interaction proof (`InteractionProof` in `types.ts`).
Field order is the interface's declaration order, which is also the insertion
order used when the proof object is built in `getInteractionProof`. -/
structure InteractionProof where
  type : String
  timestamp : Int
  freshness : Int
  target : String
  actionContext : String
  actionHash : String
  position : Position
  trajectory : List TrajectoryPoint
  velocity : Int
  acceleration : Int
  nonce : String
deriving DecidableEq, Repr

/-- Action to be signed (`Action` in `types.ts`); `payload` is opaque JSON. -/
structure Action where
  type : String
  context : String
  displayName : String
  payload : Json

/-- Result record of both proof validators: `{valid: boolean, error?}`. -/
structure ValidationResult where
  valid : Bool
  error : Option String := none
deriving DecidableEq, Repr

namespace Validator

/-- Server-side maximum proof age (`MAX_PROOF_AGE_MS`). -/
def MAX_PROOF_AGE_MS : Int := 5000

/-- Server-side minimum trajectory length (`MIN_TRAJECTORY_POINTS`). -/
def MIN_TRAJECTORY_POINTS : Nat := 3

/-- Server-side velocity bound in px/ms (`MAX_VELOCITY`). -/
def MAX_VELOCITY : Int := 10

/-- Rejection message interpolated by the server-side context-match check. -/
def contextMismatchError (expected got : String) : String :=
  "Action context mismatch: expected \"" ++ expected ++ "\", got \"" ++
    got ++ "\""

/-- Embedding of `validateTrajectoryTiming` from the server-side validator:
consecutive timestamps must not decrease and each gap is at most 2000 ms. -/
def validateTrajectoryTiming : List TrajectoryPoint → Bool
  | [] => true
  | [_] => true
  | a :: b :: rest =>
      if b.timestamp - a.timestamp < 0 then false
      else if b.timestamp - a.timestamp > 2000 then false
      else validateTrajectoryTiming (b :: rest)

/-- Embedding of `validateInteractionProof` from the server-side validator
(`api-server/src/validator.ts`), with `Date.now()` passed as `now`. The typed
model always carries a trajectory array, so the `!proof.trajectory` half of
the trajectory check is subsumed by the length test. -/
def validateInteractionProof (now : Int) (proof : InteractionProof)
    (action : Action) : ValidationResult :=
  let age := now - proof.freshness
  if age > MAX_PROOF_AGE_MS then
    { valid := false, error := some "Interaction proof expired" }
  else if age < -5000 then
    { valid := false, error := some "Interaction proof from the future" }
  else if proof.actionContext ≠ action.displayName then
    { valid := false,
      error := some (contextMismatchError action.displayName proof.actionContext) }
  else if proof.trajectory.length < MIN_TRAJECTORY_POINTS then
    { valid := false, error := some "Insufficient trajectory data" }
  else if proof.velocity > MAX_VELOCITY then
    { valid := false, error := some "Unrealistic mouse velocity detected" }
  else if !(["click", "submit", "keypress"].contains proof.type) then
    { valid := false, error := some "Invalid interaction type" }
  else if !(validateTrajectoryTiming proof.trajectory) then
    { valid := false, error := some "Invalid trajectory timing" }
  else
    { valid := true }

end Validator

namespace ProofValidator

/-- Signer-side maximum proof age (`MAX_PROOF_AGE_MS`). -/
def MAX_PROOF_AGE_MS : Int := 5000

/-- Signer-side minimum trajectory length (`MIN_TRAJECTORY_POINTS`). -/
def MIN_TRAJECTORY_POINTS : Nat := 3

/-- Signer-side velocity bound in px/ms (`MAX_VELOCITY`). -/
def MAX_VELOCITY : Int := 10

/-- Rejection message interpolated by the signer-side context-match check. -/
def contextMismatchError (proofCtx actionName : String) : String :=
  "Action context mismatch: proof=\"" ++ proofCtx ++ "\" action=\"" ++
    actionName ++ "\""

/-- Embedding of `validateTrajectoryTiming` from the signing-iframe
`proof-validator`: consecutive timestamps must not decrease and each gap is
at most 1000 ms (the server-side copy allows 2000 ms). -/
def validateTrajectoryTiming : List TrajectoryPoint → Bool
  | [] => true
  | [_] => true
  | a :: b :: rest =>
      if b.timestamp - a.timestamp < 0 then false
      else if b.timestamp - a.timestamp > 1000 then false
      else validateTrajectoryTiming (b :: rest)

/-- Embedding of `validateProof` from the signing-iframe `proof-validator`,
with `Date.now()` passed as `now`. The nonce presence check
`!proof.nonce || proof.nonce.length < 16` collapses to the length test
because the empty string (the only falsy string) also has length below 16. -/
def validateProof (now : Int) (proof : InteractionProof)
    (action : Action) : ValidationResult :=
  let age := now - proof.freshness
  if age > MAX_PROOF_AGE_MS then
    { valid := false, error := some "Interaction proof expired" }
  else if age < 0 then
    { valid := false, error := some "Interaction proof from the future" }
  else if proof.actionContext ≠ action.displayName then
    { valid := false,
      error := some (contextMismatchError proof.actionContext action.displayName) }
  else if proof.trajectory.length < MIN_TRAJECTORY_POINTS then
    { valid := false, error := some "Insufficient trajectory data" }
  else if proof.velocity > MAX_VELOCITY then
    { valid := false, error := some "Unrealistic mouse velocity detected" }
  else if !(["click", "submit", "keypress"].contains proof.type) then
    { valid := false, error := some "Invalid interaction type" }
  else if proof.position.x < 0 || proof.position.y < 0 then
    { valid := false, error := some "Invalid position coordinates" }
  else if !(validateTrajectoryTiming proof.trajectory) then
    { valid := false, error := some "Invalid trajectory timing" }
  else if proof.nonce.length < 16 then
    { valid := false, error := some "Missing or invalid nonce" }
  else
    { valid := true }

end ProofValidator

/-- Non-exportable key pair held by the signing iframe; the key material
itself is opaque to this model (an identifier handed to the sign oracle). -/
structure KeyPair where
  privateKey : Nat
  publicKey : Nat
deriving DecidableEq, Repr

/-- Response envelope of the signing iframe (`SigningResponse`). The public
key field is carried as its serialized form. -/
structure SigningResponse where
  requestId : String
  success : Bool
  publicKey : Option String := none
  signature : Option String := none
  error : Option String := none
deriving DecidableEq, Repr

/-- JSON encoding of a recorded position, in insertion order. -/
def Position.toJson (p : Position) : Json :=
  .obj [("x", .num p.x), ("y", .num p.y)]

/-- JSON encoding of a trajectory point, in insertion order. -/
def TrajectoryPoint.toJson (t : TrajectoryPoint) : Json :=
  .obj [("x", .num t.x), ("y", .num t.y), ("timestamp", .num t.timestamp)]

/-- JSON form of the wire proof, fields in the construction order used by
`getInteractionProof`. -/
def InteractionProof.toJson (p : InteractionProof) : Json :=
  .obj [("type", .str p.type), ("timestamp", .num p.timestamp),
        ("freshness", .num p.freshness), ("target", .str p.target),
        ("actionContext", .str p.actionContext),
        ("actionHash", .str p.actionHash),
        ("position", p.position.toJson),
        ("trajectory", .arr (p.trajectory.map TrajectoryPoint.toJson)),
        ("velocity", .num p.velocity),
        ("acceleration", .num p.acceleration),
        ("nonce", .str p.nonce)]

/-- JSON form of an action, fields in declaration order. -/
def Action.toJson (a : Action) : Json :=
  .obj [("type", .str a.type), ("context", .str a.context),
        ("displayName", .str a.displayName), ("payload", a.payload)]

namespace SigningContext

/-- Embedding of `handleSign` from the signing-iframe entry point: validate
the proof with the signer-side validator; on rejection answer a structured
error carrying the validator's reason; otherwise look up the stored key pair
(argument `keyPair`, the result of `getKeyPair()`), build the canonical
message and sign it. `signData` is the opaque WebCrypto signing oracle. -/
def handleSign (signData : Nat → String → String) (now : Int)
    (keyPair : Option KeyPair) (requestId : String) (action : Action)
    (proof : InteractionProof) (nonce : String) : SigningResponse :=
  let validation := ProofValidator.validateProof now proof action
  if validation.valid = false then
    { requestId := requestId, success := false, error := validation.error }
  else
    match keyPair with
    | none =>
        { requestId := requestId, success := false,
          error := some "No key pair found. Initialize first." }
    | some kp =>
        let message := CryptoService.createCanonicalMessage
          action.toJson proof.toJson nonce
        { requestId := requestId, success := true,
          signature := some (signData kp.privateKey message) }

end SigningContext

/-- One record of the tracker's pending interaction pool
(`RecordedInteraction`). -/
structure RecordedInteraction where
  type : String
  timestamp : Int
  target : String
  position : Position
  trajectory : List TrajectoryPoint
  actionContext : String
  velocity : Int
  acceleration : Int
deriving DecidableEq, Repr

namespace InteractionTracker

/-- The matching condition of the scan in `findMatchingInteraction`: a record
is taken when it is not older than `maxAge` (5000 ms) — older records are
skipped with `continue` — and its `actionContext` equals the action's
`displayName`. -/
def isMatch (now : Int) (name : String) (r : RecordedInteraction) : Bool :=
  if now - r.timestamp > 5000 then false else r.actionContext == name

/-- Helper for the downward index loop of `findMatchingInteraction`: the pool
is processed in reverse (most recent first); on the first match the matched
record is returned together with the remaining reversed pool, which models
`splice(i, 1)` removing exactly the matched index. -/
def findRev (now : Int) (name : String) :
    List RecordedInteraction →
      Option (RecordedInteraction × List RecordedInteraction)
  | [] => none
  | r :: rest =>
      if isMatch now name r then some (r, rest)
      else
        match findRev now name rest with
        | some (m, rest2) => some (m, r :: rest2)
        | none => none

/-- Embedding of `InteractionTracker.findMatchingInteraction`: scan the pool
from most recent to oldest, skip stale records, take the first record whose
`actionContext` equals `action.displayName`, remove it from the pool and
return it together with the updated pool. -/
def findMatchingInteraction (now : Int) (action : Action)
    (interactions : List RecordedInteraction) :
    Option RecordedInteraction × List RecordedInteraction :=
  match findRev now action.displayName interactions.reverse with
  | some (m, rest) => (some m, rest.reverse)
  | none => (none, interactions)

end InteractionTracker

/-- Server-side session record (`Session` in `types.ts`). -/
structure Session where
  sessionId : String
  userId : String
  publicKey : String
  createdAt : Int
  lastAccess : Int
  ipAddress : String
  userAgent : String
  expiresAt : Int
deriving DecidableEq, Repr

/-- Value stored in the key-value store of `store.ts`. The store is a single
string-to-string map whose keys carry a "session:" or "nonce:" marker; nonce
entries hold the literal string "1" and session entries hold
`JSON.stringify(session)`. Session values are modelled as the tagged record
(the JSON round trip of a `Session` record is faithful). -/
inductive StoredValue where
  | str (s : String) : StoredValue
  | sess (s : Session) : StoredValue
deriving DecidableEq, Repr

/-- Replace-or-add a binding, the semantics of `Map.set` / Redis `SET`. -/
def aset {α : Type} (k : String) (v : α) (l : List (String × α)) :
    List (String × α) :=
  (k, v) :: l.filter (fun kv => !(kv.1 == k))

/-- Remove a binding, the semantics of `Map.delete` / Redis `DEL`. -/
def aerase {α : Type} (k : String) (l : List (String × α)) :
    List (String × α) :=
  l.filter (fun kv => !(kv.1 == k))

namespace Store

/-- Session TTL in seconds (`SESSION_TTL`). -/
def SESSION_TTL : Int := 86400

/-- Nonce TTL in seconds (`NONCE_TTL`). -/
def NONCE_TTL : Int := 300

/-- Key of a session entry (`sessionKey`). -/
def sessionKey (sessionId : String) : String := "session:" ++ sessionId

/-- Key of a nonce entry (`nonceKey`). -/
def nonceKey (nonce : String) : String := "nonce:" ++ nonce

/-- State of the store of `store.ts`: either the Redis connection or the
in-memory fallback maps (`inMemoryStore` and `inMemoryExpiry`). Redis is
modelled by its documented TTL key-value semantics over the same two maps;
`redisMode` records which branch each operation takes. -/
structure StoreState where
  redisMode : Bool
  store : List (String × StoredValue)
  expiry : List (String × Int)
deriving DecidableEq, Repr

/-- Embedding of `storeSession`: `redis.setex(key, SESSION_TTL, value)` in
Redis mode, and `set` plus an expiry of `Date.now() + SESSION_TTL * 1000` in
the fallback — the two branches have the same store semantics, so one body
serves both. -/
def storeSession (now : Int) (session : Session) (st : StoreState) :
    StoreState :=
  let key := sessionKey session.sessionId
  { st with
    store := aset key (.sess session) st.store,
    expiry := aset key (now + SESSION_TTL * 1000) st.expiry }

/-- Embedding of `getSession`. Redis mode (`redis.get`) returns the value of
an unexpired key with no observable state change. The in-memory fallback
returns the value while the expiry is strictly in the future and otherwise
deletes the (expired or expiry-less) entry from both maps before returning
null — this branch mutates the store. A non-session value under a session
key cannot arise (key markers are disjoint). -/
def getSession (now : Int) (sessionId : String) (st : StoreState) :
    Option Session × StoreState :=
  let key := sessionKey sessionId
  if st.redisMode then
    match lookupField key st.expiry, lookupField key st.store with
    | some e, some (.sess s) => if e > now then (some s, st) else (none, st)
    | _, _ => (none, st)
  else
    match lookupField key st.expiry with
    | some e =>
        if e > now then
          (match lookupField key st.store with
            | some (.sess s) => some s
            | _ => none,
           st)
        else
          (none,
           { st with store := aerase key st.store,
                     expiry := aerase key st.expiry })
    | none =>
        (none,
         { st with store := aerase key st.store,
                   expiry := aerase key st.expiry })

/-- Embedding of `touchSession`: re-read the session and, when it exists,
store it back with `lastAccess = Date.now()`. -/
def touchSession (now : Int) (sessionId : String) (st : StoreState) :
    StoreState :=
  match getSession now sessionId st with
  | (some session, st1) => storeSession now { session with lastAccess := now } st1
  | (none, st1) => st1

/-- Embedding of `storeNonce`: register the value "1" under the nonce key
with the nonce TTL. -/
def storeNonce (now : Int) (nonce : String) (st : StoreState) : StoreState :=
  let key := nonceKey nonce
  { st with
    store := aset key (.str "1") st.store,
    expiry := aset key (now + NONCE_TTL * 1000) st.expiry }

/-- Embedding of `validateAndConsumeNonce`. Redis mode uses `GETDEL`, the
atomic fetch-and-delete: the call returns whether the unexpired value was
"1" and the key is gone afterwards (an expired key is equivalent to an
absent one and is dropped on access). The in-memory fallback checks
`expiry && expiry > Date.now() && store.get(key) === "1"` and deletes both
entries on success; the check and delete run in one synchronous block. -/
def validateAndConsumeNonce (now : Int) (nonce : String) (st : StoreState) :
    Bool × StoreState :=
  let key := nonceKey nonce
  if st.redisMode then
    match lookupField key st.expiry, lookupField key st.store with
    | some e, some v =>
        if e > now then
          (v == .str "1",
           { st with store := aerase key st.store,
                     expiry := aerase key st.expiry })
        else
          (false,
           { st with store := aerase key st.store,
                     expiry := aerase key st.expiry })
    | _, _ => (false, st)
  else
    match lookupField key st.expiry with
    | some e =>
        if e > now then
          if lookupField key st.store == some (.str "1") then
            (true,
             { st with store := aerase key st.store,
                       expiry := aerase key st.expiry })
          else (false, st)
        else (false, st)
    | none => (false, st)

/-- A nonce-store operation, for stating trace-level properties of the nonce
life cycle. -/
inductive NonceOp where
  | store (nonce : String) (now : Int) : NonceOp
  | consume (nonce : String) (now : Int) : NonceOp

/-- Run a sequence of nonce operations against the store. -/
def runNonceOps (st : StoreState) : List NonceOp → StoreState
  | [] => st
  | .store n t :: rest => runNonceOps (storeNonce t n st) rest
  | .consume n t :: rest => runNonceOps (validateAndConsumeNonce t n st).2 rest

end Store

/-- Inputs of one protected request as far as `verifyRequest` consumes them:
the three headers, the URL path, and the parsed JSON body. `proofHeader`
distinguishes a missing `X-Interaction-Proof` header (`none`), a header
whose `JSON.parse` fails (`some none`), and a parsed proof
(`some (some proof)`); `body` is `none` when `request.json()` throws. -/
structure VerifyInput where
  sessionIdHeader : Option String
  signatureHeader : Option String
  proofHeader : Option (Option InteractionProof)
  path : String
  body : Option Json

/-- Result of `verifyRequest`: `{valid, session?, error?}`. -/
structure VerifyResult where
  valid : Bool
  session : Option Session := none
  error : Option String := none
deriving DecidableEq, Repr

namespace Server

/-- The action reconstructed by `verifyRequest` for a protected request: the
server builds it from the request URL and body, taking `displayName` from
the proof's own `actionContext`. -/
def serverAction (path : String) (body : Json) (proof : InteractionProof) :
    Action :=
  { type := "api_call", context := path,
    displayName := proof.actionContext, payload := body }

/-- Embedding of `verifyRequest` from `api-server/src/server.ts`: check the
three headers, resolve the session, parse the proof, require and consume the
nonce, parse the body and reconstruct the action, validate the proof
server-side, verify the signature (`verifySignature` is the opaque ECDSA
oracle over the session's registered public key), and only then touch the
session. Every failure returns immediately with `valid: false`. -/
def verifyRequest
    (verifySignature : String → String → Action → InteractionProof → String → Bool)
    (now : Int) (inp : VerifyInput) (st : Store.StoreState) :
    VerifyResult × Store.StoreState :=
  match inp.sessionIdHeader with
  | none => ({ valid := false, error := some "Missing X-Session-ID header" }, st)
  | some sessionId =>
    match inp.signatureHeader with
    | none => ({ valid := false, error := some "Missing X-Signature header" }, st)
    | some signature =>
      match inp.proofHeader with
      | none =>
          ({ valid := false,
             error := some "Missing X-Interaction-Proof header" }, st)
      | some proofParse =>
        match Store.getSession now sessionId st with
        | (none, st1) =>
            ({ valid := false, error := some "Invalid or expired session" }, st1)
        | (some session, st1) =>
          match proofParse with
          | none =>
              ({ valid := false,
                 error := some "Invalid interaction proof format" }, st1)
          | some proof =>
            if proof.nonce = "" then
              ({ valid := false, error := some "Missing nonce in proof" }, st1)
            else
              match Store.validateAndConsumeNonce now proof.nonce st1 with
              | (false, st2) =>
                  ({ valid := false, error := some "Invalid or reused nonce" }, st2)
              | (true, st2) =>
                match inp.body with
                | none =>
                    ({ valid := false, error := some "Invalid request body" }, st2)
                | some body =>
                  let action := serverAction inp.path body proof
                  let proofValidation :=
                    Validator.validateInteractionProof now proof action
                  if proofValidation.valid = false then
                    ({ valid := false, error := proofValidation.error }, st2)
                  else if verifySignature session.publicKey signature action
                      proof proof.nonce = false then
                    ({ valid := false,
                       error := some "Signature verification failed" }, st2)
                  else
                    ({ valid := true, session := some session },
                     Store.touchSession now sessionId st2)

end Server

/-- Well-formedness of a JSON-like value as produced by a JavaScript value:
the keys of every object are distinct at every nesting level. -/
inductive JsLike : Json → Prop where
  | null : JsLike .null
  | bool (b : Bool) : JsLike (.bool b)
  | num (n : Int) : JsLike (.num n)
  | str (s : String) : JsLike (.str s)
  | arr {items : List Json} (h : ∀ j ∈ items, JsLike j) : JsLike (.arr items)
  | obj {fields : List (String × Json)}
      (hnodup : (fields.map Prod.fst).Nodup)
      (h : ∀ kv ∈ fields, JsLike kv.2) : JsLike (.obj fields)

/-- `Reorder v w` holds when `w` is `v` with the insertion order of object
keys permuted at any nesting levels: at an object node the field list may
first be permuted and the values are then related pointwise under equal
keys; arrays keep their element order. -/
inductive Reorder : Json → Json → Prop where
  | null : Reorder .null .null
  | bool (b : Bool) : Reorder (.bool b) (.bool b)
  | num (n : Int) : Reorder (.num n) (.num n)
  | str (s : String) : Reorder (.str s) (.str s)
  | arr {l1 l2 : List Json} (hlen : l1.length = l2.length)
      (h : ∀ (i : Nat) (h1 : i < l1.length) (h2 : i < l2.length),
        Reorder (l1.get ⟨i, h1⟩) (l2.get ⟨i, h2⟩)) :
      Reorder (.arr l1) (.arr l2)
  | obj {l1 mid l2 : List (String × Json)}
      (hperm : List.Perm l1 mid) (hlen : mid.length = l2.length)
      (hkeys : ∀ (i : Nat) (h1 : i < mid.length) (h2 : i < l2.length),
        (mid.get ⟨i, h1⟩).1 = (l2.get ⟨i, h2⟩).1)
      (hvals : ∀ (i : Nat) (h1 : i < mid.length) (h2 : i < l2.length),
        Reorder (mid.get ⟨i, h1⟩).2 (l2.get ⟨i, h2⟩).2) :
      Reorder (.obj l1) (.obj l2)

/-- Sample action used by the concrete witnesses below. -/
def sampleAction : Action :=
  { type := "api_call", context := "/api/transfer",
    displayName := "Confirm Transfer", payload := .null }

/-- Sample well-formed wire proof used by the concrete witnesses below; its
freshness stamp is 10000 ms and it passes every non-freshness check of both
validators. -/
def sampleProof : InteractionProof :=
  { type := "click", timestamp := 9980, freshness := 10000,
    target := "targethash", actionContext := "Confirm Transfer",
    actionHash := "actionhash",
    position := { x := 10, y := 20 },
    trajectory := [ { x := 0, y := 0, timestamp := 100 },
                    { x := 5, y := 5, timestamp := 116 },
                    { x := 10, y := 10, timestamp := 132 } ],
    velocity := 1, acceleration := 0,
    nonce := "0123456789abcdef" }

/-- Observational live-session view of the store: the session that a pure
unexpired-entry lookup returns at time `now`. Used to state that rejected
requests leave every live session unchanged. -/
def Store.sessionView (now : Int) (sid : String) (st : Store.StoreState) :
    Option Session :=
  match lookupField (Store.sessionKey sid) st.expiry,
      lookupField (Store.sessionKey sid) st.store with
  | some e, some (.sess s) => if e > now then some s else none
  | _, _ => none

/-- Sample recorded interaction (tracker pool entry) used by witnesses. -/
def sampleRecorded : RecordedInteraction :=
  { type := "click", timestamp := 9990, target := "targethash",
    position := { x := 1, y := 2 }, trajectory := [],
    actionContext := "Confirm Transfer", velocity := 1, acceleration := 0 }

/-- Sample session record used by the server-level witnesses. -/
def sampleSession : Session :=
  { sessionId := "s1", userId := "u1", publicKey := "pk", createdAt := 0,
    lastAccess := 0, ipAddress := "127.0.0.1", userAgent := "ua",
    expiresAt := 86400000 }

/-- Sample store holding one live session and one live nonce. -/
def sampleStore : Store.StoreState :=
  { redisMode := false,
    store := [(Store.sessionKey "s1", .sess sampleSession),
              (Store.nonceKey "0123456789abcdef", .str "1")],
    expiry := [(Store.sessionKey "s1", 86400000),
               (Store.nonceKey "0123456789abcdef", 300000)] }

/-- Sample store holding one session whose TTL has already passed. -/
def sampleExpiredStore : Store.StoreState :=
  { redisMode := false,
    store := [(Store.sessionKey "s1", .sess sampleSession)],
    expiry := [(Store.sessionKey "s1", 50)] }

/-- Sample protected request carrying the sample proof. -/
def sampleInput : VerifyInput :=
  { sessionIdHeader := some "s1", signatureHeader := some "sig",
    proofHeader := some (some sampleProof), path := "/api/transfer",
    body := some Json.null }

/-!
Theorems. Everything below is proof; the embedded program text is above.
-/

theorem listLtChar_asymm :
    ∀ {a b : List Char}, listLtChar a b = true → listLtChar b a = true → False
  | [], [], h1, _ => by simp [listLtChar] at h1
  | [], _ :: _, _, h2 => by simp [listLtChar] at h2
  | _ :: _, [], h1, _ => by simp [listLtChar] at h1
  | a :: as, b :: bs, h1, h2 => by
      by_cases hab : a < b
      · by_cases hba : b < a
        · exact absurd (lt_trans hab hba) (lt_irrefl a)
        · simp [listLtChar, hab, hba] at h2
      · by_cases hba : b < a
        · simp [listLtChar, hab, hba] at h1
        · simp [listLtChar, hab, hba] at h1 h2
          exact listLtChar_asymm h1 h2

theorem listLtChar_connex :
    ∀ {a b : List Char}, listLtChar a b = false → listLtChar b a = false → a = b
  | [], [], _, _ => rfl
  | [], _ :: _, h1, _ => by simp [listLtChar] at h1
  | _ :: _, [], _, h2 => by simp [listLtChar] at h2
  | a :: as, b :: bs, h1, h2 => by
      by_cases hab : a < b
      · simp [listLtChar, hab] at h1
      · by_cases hba : b < a
        · simp [listLtChar, hba] at h2
        · simp [listLtChar, hab, hba] at h1 h2
          have : a = b := le_antisymm (not_lt.mp hba) (not_lt.mp hab)
          rw [this, listLtChar_connex h1 h2]

theorem listLtChar_trans :
    ∀ {a b c : List Char}, listLtChar a b = true → listLtChar b c = true →
      listLtChar a c = true
  | [], [], _, h1, _ => by simp [listLtChar] at h1
  | [], _ :: _, [], _, h2 => by simp [listLtChar] at h2
  | [], _ :: _, _ :: _, _, _ => by simp [listLtChar]
  | _ :: _, [], _, h1, _ => by simp [listLtChar] at h1
  | _ :: _, _ :: _, [], _, h2 => by simp [listLtChar] at h2
  | a :: as, b :: bs, c :: cs, h1, h2 => by
      by_cases hab : a < b
      · by_cases hbc : b < c
        · simp [listLtChar, lt_trans hab hbc]
        · by_cases hcb : c < b
          · simp [listLtChar, hbc, hcb] at h2
          · have : b = c := le_antisymm (not_lt.mp hcb) (not_lt.mp hbc)
            subst this
            simp [listLtChar, hab]
      · by_cases hba : b < a
        · simp [listLtChar, hab, hba] at h1
        · have hab' : a = b := le_antisymm (not_lt.mp hba) (not_lt.mp hab)
          subst hab'
          simp only [listLtChar, if_neg (lt_irrefl a)] at h1
          by_cases hac : a < c
          · simp [listLtChar, hac]
          · by_cases hca : c < a
            · simp [listLtChar, hac, hca] at h2
            · simp only [listLtChar, if_neg hac, if_neg hca] at h2 ⊢
              exact listLtChar_trans h1 h2

theorem strLe_total (a b : String) : strLe a b = true ∨ strLe b a = true := by
  by_cases h1 : strLt b a = true
  · by_cases h2 : strLt a b = true
    · exact absurd (listLtChar_asymm h1 h2) (fun h => h)
    · right; simpa [strLe] using h2
  · left; simpa [strLe] using h1

theorem strLe_trans {a b c : String} (h1 : strLe a b = true)
    (h2 : strLe b c = true) : strLe a c = true := by
  simp only [strLe, strLt, Bool.not_eq_true'] at h1 h2 ⊢
  by_cases hca : listLtChar c.data a.data = true
  · exfalso
    by_cases hbc : listLtChar b.data c.data = true
    · exact absurd (listLtChar_trans hbc hca) (by simp [h1])
    · simp only [Bool.not_eq_true] at hbc
      have hbceq := listLtChar_connex hbc h2
      rw [← hbceq] at hca
      exact absurd hca (by simp [h1])
  · simp only [Bool.not_eq_true] at hca
    exact hca

theorem mem_sortFields {α : Type} {kv : String × α} {l : List (String × α)}
    (h : kv ∈ sortFields l) : kv ∈ l :=
  (List.perm_insertionSort keyLE l).mem_iff.mp h

theorem sortFields_perm {α : Type} (l : List (String × α)) :
    List.Perm (sortFields l) l :=
  List.perm_insertionSort keyLE l


/-- Structural induction principle for `Json` with membership-based
hypotheses for the nested lists. -/
theorem Json.inductionOn {motive : Json → Prop}
    (hnull : motive .null)
    (hbool : ∀ b, motive (.bool b))
    (hnum : ∀ n, motive (.num n))
    (hstr : ∀ s, motive (.str s))
    (harr : ∀ items, (∀ j ∈ items, motive j) → motive (.arr items))
    (hobj : ∀ fields, (∀ kv ∈ fields, motive kv.2) → motive (.obj fields)) :
    ∀ j, motive j
  | .null => hnull
  | .bool b => hbool b
  | .num n => hnum n
  | .str s => hstr s
  | .arr items =>
      harr items (fun j _ =>
        Json.inductionOn hnull hbool hnum hstr harr hobj j)
  | .obj fields =>
      hobj fields (fun kv _ =>
        Json.inductionOn hnull hbool hnum hstr harr hobj kv.2)
termination_by j => sizeOf j
decreasing_by
  · rename_i hmem
    have h1 := List.sizeOf_lt_of_mem hmem
    simp only [Json.arr.sizeOf_spec]
    omega
  · rename_i hmem
    have h1 := List.sizeOf_lt_of_mem hmem
    cases kv with
    | mk a b =>
      simp only [Prod.mk.sizeOf_spec] at h1
      simp only [Json.obj.sizeOf_spec]
      omega

theorem cryptoCanonList_eq_map (items : List Json) :
    Crypto.canonList items = items.map Crypto.canonicalize := by
  induction items with
  | nil => rfl
  | cons j rest ih => simp [Crypto.canonList, ih]

theorem cryptoCanonFields_eq_map (fields : List (String × Json)) :
    Crypto.canonFields fields
      = fields.map (fun kv => (kv.1, Crypto.canonicalize kv.2)) := by
  induction fields with
  | nil => rfl
  | cons kv rest ih => cases kv; simp [Crypto.canonFields, ih]

theorem csCanonList_eq_map (items : List Json) :
    CryptoService.canonList items = items.map CryptoService.canonicalize := by
  induction items with
  | nil => rfl
  | cons j rest ih => simp [CryptoService.canonList, ih]

theorem csCanonFields_eq_map (fields : List (String × Json)) :
    CryptoService.canonFields fields
      = fields.map (fun kv => (kv.1, CryptoService.canonicalize kv.2)) := by
  induction fields with
  | nil => rfl
  | cons kv rest ih => cases kv; simp [CryptoService.canonFields, ih]

/-- The verifier-side `canonicalize` (`crypto.ts`) and the signer-side
`canonicalize` (`crypto-service`, recursive variant) agree on every value. -/
theorem canonicalize_copies_agree (j : Json) :
    Crypto.canonicalize j = CryptoService.canonicalize j := by
  induction j using Json.inductionOn with
  | hnull => rfl
  | hbool b => rfl
  | hnum n => rfl
  | hstr s => rfl
  | harr items ih =>
      simp only [Crypto.canonicalize, CryptoService.canonicalize,
        cryptoCanonList_eq_map, csCanonList_eq_map]
      rw [List.map_congr_left ih]
  | hobj fields ih =>
      simp only [Crypto.canonicalize, CryptoService.canonicalize,
        cryptoCanonFields_eq_map, csCanonFields_eq_map]
      have hmap : fields.map (fun kv => (kv.1, Crypto.canonicalize kv.2))
          = fields.map (fun kv => (kv.1, CryptoService.canonicalize kv.2)) :=
        List.map_congr_left (fun kv hkv => by rw [ih kv hkv])
      rw [hmap]

theorem strLt_of_le_ne {a b : String} (hle : strLe a b = true) (hne : a ≠ b) :
    strLt a b = true := by
  by_cases h : strLt a b = true
  · exact h
  · exfalso
    simp only [strLe, strLt, Bool.not_eq_true'] at hle h
    simp only [Bool.not_eq_true] at h
    exact hne (String.ext (listLtChar_connex h hle))

theorem sorted_keyLT_sortFields {α : Type} (l : List (String × α))
    (hnodup : (l.map Prod.fst).Nodup) :
    List.Sorted (keyLT (α := α)) (sortFields l) := by
  haveI : IsTotal (String × α) keyLE := ⟨fun a b => strLe_total a.1 b.1⟩
  haveI : IsTrans (String × α) keyLE := ⟨fun _ _ _ h1 h2 => strLe_trans h1 h2⟩
  have hs : List.Sorted (keyLE (α := α)) (sortFields l) :=
    List.sorted_insertionSort keyLE l
  have hndmap : ((sortFields l).map Prod.fst).Nodup :=
    ((sortFields_perm l).map Prod.fst).nodup_iff.mpr hnodup
  have hpne : (sortFields l).Pairwise (fun a b => a.1 ≠ b.1) := by
    rw [List.Nodup, List.pairwise_map] at hndmap
    exact hndmap
  have := hs.and hpne
  exact this.imp (fun hab => strLt_of_le_ne hab.1 hab.2)

theorem sortFields_eq_of_perm {α : Type} {r1 r2 : List (String × α)}
    (hperm : List.Perm r1 r2) (hnodup : (r1.map Prod.fst).Nodup) :
    sortFields r1 = sortFields r2 := by
  haveI : IsAntisymm (String × α) (keyLT (α := α)) :=
    ⟨fun _ _ h1 h2 => absurd (listLtChar_asymm h1 h2) (fun h => h)⟩
  have hnodup2 : (r2.map Prod.fst).Nodup :=
    (hperm.map Prod.fst).nodup_iff.mp hnodup
  exact List.eq_of_perm_of_sorted
    ((sortFields_perm r1).trans (hperm.trans (sortFields_perm r2).symm))
    (sorted_keyLT_sortFields r1 hnodup)
    (sorted_keyLT_sortFields r2 hnodup2)

/-- Key-order invariance of the verifier-side canonicalizer, proved for every
JavaScript-producible (distinct-keyed) value and every reordering. -/
theorem canonicalize_reorder_invariant (v w : Json) (hv : JsLike v)
    (hr : Reorder v w) :
    Crypto.canonicalize v = Crypto.canonicalize w := by
  induction hr with
  | null => rfl
  | bool b => rfl
  | num n => rfl
  | str s => rfl
  | arr hlen h ih =>
      cases hv with
      | arr hmem =>
        simp only [Crypto.canonicalize, cryptoCanonList_eq_map]
        rename_i l1 l2
        have hm : l1.map Crypto.canonicalize = l2.map Crypto.canonicalize := by
          apply List.ext_getElem (by simpa using hlen)
          intro i h1 h2
          simp only [List.getElem_map]
          have h1l : i < l1.length := by simpa using h1
          have h2l : i < l2.length := by simpa using h2
          have := ih i h1l h2l (hmem _ (List.get_mem l1 i h1l))
          simpa [List.get_eq_getElem] using this
        rw [hm]
  | obj hperm hlen hkeys hvals ih =>
      cases hv with
      | obj hnodup hmem =>
        simp only [Crypto.canonicalize, cryptoCanonFields_eq_map]
        rename_i l1 mid l2
        have hmid : mid.map (fun kv => (kv.1, Crypto.canonicalize kv.2))
            = l2.map (fun kv => (kv.1, Crypto.canonicalize kv.2)) := by
          apply List.ext_getElem (by simpa using hlen)
          intro i h1 h2
          simp only [List.getElem_map]
          have h1l : i < mid.length := by simpa using h1
          have h2l : i < l2.length := by simpa using h2
          have hkey := hkeys i h1l h2l
          have hmeml1 : mid.get ⟨i, h1l⟩ ∈ l1 :=
            hperm.mem_iff.mpr (List.get_mem mid i h1l)
          have hval := ih i h1l h2l (hmem _ hmeml1)
          simp only [List.get_eq_getElem] at hkey hval
          exact Prod.ext hkey hval
        have hpermR : List.Perm
            (l1.map (fun kv => (kv.1, Crypto.canonicalize kv.2)))
            (l2.map (fun kv => (kv.1, Crypto.canonicalize kv.2))) := by
          have := hperm.map (fun kv => (kv.1, Crypto.canonicalize kv.2))
          rwa [hmid] at this
        have hnodupR :
            ((l1.map (fun kv => (kv.1, Crypto.canonicalize kv.2))).map
              Prod.fst).Nodup := by
          have hcomp : (l1.map (fun kv => (kv.1, Crypto.canonicalize kv.2))).map
              Prod.fst = l1.map Prod.fst := by
            simp [List.map_map, Function.comp]
          rw [hcomp]
          exact hnodup
        rw [sortFields_eq_of_perm hpermR hnodupR]

/-- C2 (amended): for every (action, proof, nonce) triple of JSON-like
values, the verifier-side `createCanonicalMessage` (`crypto.ts`) and the
signer-side recursive-canonicalization copy of `createCanonicalMessage`
(`crypto-service`) produce byte-identical output strings. (The legacy
replacer-based signer copy does not; see the counterexample.) -/
theorem claim_C2 (action proof : Json) (nonce : String) :
    Crypto.createCanonicalMessage action proof nonce
      = CryptoService.createCanonicalMessage action proof nonce := by
  simp only [Crypto.createCanonicalMessage,
    CryptoService.createCanonicalMessage, canonicalize_copies_agree]

/-- C2 counterexample: on an action with an object payload, the legacy
signer-side `createCanonicalMessage` (the `JSON.stringify` array-replacer
variant) and the verifier-side copy disagree — the replacer drops the nested
`amount` key, so the claim that the signer-side and verifier-side functions
are byte-identical on every triple is false. -/
theorem claim_C2_counterexample :
    CryptoServiceLegacy.createCanonicalMessage
        (.obj [("type", .str "api_call"), ("context", .str "/api/transfer"),
               ("displayName", .str "Confirm Transfer"),
               ("payload", .obj [("amount", .num 500)])])
        (.obj []) "n1"
      ≠ Crypto.createCanonicalMessage
        (.obj [("type", .str "api_call"), ("context", .str "/api/transfer"),
               ("displayName", .str "Confirm Transfer"),
               ("payload", .obj [("amount", .num 500)])])
        (.obj []) "n1" := by decide

/-- C8: for every JSON-like value `v` (distinct object keys at every level,
as JavaScript objects have) and every reordering `w` of the object-key
insertion orders at any nesting levels, `canonicalize v = canonicalize w` —
object keys are emitted sorted at every level and array order is preserved,
so the output is invariant under key reordering. -/
theorem claim_C8 (v w : Json) (hv : JsLike v) (hr : Reorder v w) :
    Crypto.canonicalize v = Crypto.canonicalize w :=
  canonicalize_reorder_invariant v w hv hr

/-- Witness for C8 at a concrete input: reordering the keys of
`{b: 1, a: null}` does not change its canonical form. -/
theorem claim_C8_witness :
    Crypto.canonicalize (.obj [("b", .num 1), ("a", .null)])
      = Crypto.canonicalize (.obj [("a", .null), ("b", .num 1)]) :=
  claim_C8 _ _
    (JsLike.obj (by decide) (by
      intro kv hkv
      simp only [List.mem_cons, List.not_mem_nil, or_false] at hkv
      rcases hkv with rfl | rfl
      · exact JsLike.num 1
      · exact JsLike.null))
    (Reorder.obj
      (List.Perm.swap ("a", Json.null) ("b", Json.num 1) [])
      rfl
      (by
        intro i h1 h2
        have h1b : i < 2 := by simpa using h1
        interval_cases i
        · rfl
        · rfl)
      (by
        intro i h1 h2
        have h1b : i < 2 := by simpa using h1
        interval_cases i
        · exact Reorder.null
        · exact Reorder.num 1))

theorem timing_signer_imp_server :
    ∀ l, ProofValidator.validateTrajectoryTiming l = true →
      Validator.validateTrajectoryTiming l = true
  | [], _ => rfl
  | [_], _ => rfl
  | a :: b :: rest, h => by
      simp only [ProofValidator.validateTrajectoryTiming] at h
      simp only [Validator.validateTrajectoryTiming]
      by_cases h1 : b.timestamp - a.timestamp < 0
      · simp [h1] at h
      · by_cases h2 : b.timestamp - a.timestamp > 1000
        · simp [h1, h2] at h
        · have h3 : ¬ b.timestamp - a.timestamp > 2000 := by omega
          simp only [if_neg h1, if_neg h2] at h
          simp only [if_neg h1, if_neg h3]
          exact timing_signer_imp_server (b :: rest) h

/-- C1 (amended): the signer-side validator refines the server-side one —
every (proof, action, now) the signing-iframe `validateProof` accepts is
also accepted by the server-side `validateInteractionProof`. The two are not
equal as functions (see the counterexample): the server additionally allows
5 s of clock skew and 2000 ms trajectory gaps and does not perform the
signer's position and nonce checks. -/
theorem claim_C1 (now : Int) (p : InteractionProof) (a : Action)
    (h : (ProofValidator.validateProof now p a).valid = true) :
    (Validator.validateInteractionProof now p a).valid = true := by
  simp only [ProofValidator.validateProof, ProofValidator.MAX_PROOF_AGE_MS,
    ProofValidator.MIN_TRAJECTORY_POINTS, ProofValidator.MAX_VELOCITY] at h
  simp only [Validator.validateInteractionProof, Validator.MAX_PROOF_AGE_MS,
    Validator.MIN_TRAJECTORY_POINTS, Validator.MAX_VELOCITY]
  split_ifs at h with hc1 hc2 hc3 hc4 hc5 hc6 hc7 hc8 hc9
  split_ifs with g1 g2
  · omega
  · simp only [Bool.not_eq_true, Bool.not_eq_false'] at hc8
    have ht := timing_signer_imp_server p.trajectory hc8
    rw [ht] at g2
    simp at g2
  · rfl

/-- C1 counterexample: on a proof whose freshness stamp lies 1 ms in the
future the signing-iframe validator rejects ("Interaction proof from the
future") while the server-side validator accepts (it tolerates 5 s of clock
skew), so the two validators do not return the same accept/reject decision
for every (proof, action, now). -/
theorem claim_C1_counterexample :
    ¬ ((ProofValidator.validateProof 9999 sampleProof sampleAction).valid
        = (Validator.validateInteractionProof 9999 sampleProof
            sampleAction).valid) := by
  decide

/-- Witness for C1 at a concrete input: a 500 ms old sample proof is
accepted by the signer-side validator, hence by the server-side one. -/
theorem claim_C1_witness :
    (ProofValidator.validateProof 10500 sampleProof sampleAction).valid = true
      ∧ (Validator.validateInteractionProof 10500 sampleProof
          sampleAction).valid = true :=
  ⟨by decide, claim_C1 10500 sampleProof sampleAction (by decide)⟩

/-- C4: for proofs passing every non-freshness check (stated with the
signer-side, stricter versions of those checks), each validator accepts
exactly the ages in `[-clockSkewToleranceMs, maxAgeMs]`: the server-side
validator accepts exactly ages in [-5000, 5000] (5 s skew tolerance) and the
signing-iframe validator exactly ages in [0, 5000] (no skew tolerance). In
particular a proof aged exactly `maxAgeMs` = 5000 ms is accepted, one
millisecond older is rejected, and a future stamp beyond the tolerance is
rejected. -/
theorem claim_C4 (now : Int) (p : InteractionProof) (a : Action)
    (hctx : p.actionContext = a.displayName)
    (hlen : 3 ≤ p.trajectory.length)
    (hvel : p.velocity ≤ 10)
    (htype : ["click", "submit", "keypress"].contains p.type = true)
    (hposx : 0 ≤ p.position.x) (hposy : 0 ≤ p.position.y)
    (htime : ProofValidator.validateTrajectoryTiming p.trajectory = true)
    (hnonce : 16 ≤ p.nonce.length) :
    ((Validator.validateInteractionProof now p a).valid = true ↔
      (-5000 ≤ now - p.freshness ∧ now - p.freshness ≤ 5000)) ∧
    ((ProofValidator.validateProof now p a).valid = true ↔
      (0 ≤ now - p.freshness ∧ now - p.freshness ≤ 5000)) := by
  have htime2 := timing_signer_imp_server p.trajectory htime
  constructor
  · simp only [Validator.validateInteractionProof, Validator.MAX_PROOF_AGE_MS,
      Validator.MIN_TRAJECTORY_POINTS, Validator.MAX_VELOCITY]
    split_ifs with g1 g2 g3 g4 g5 g6 g7
    · simp; omega
    · simp; omega
    · exact absurd hctx g3
    · exact absurd g4 (by omega)
    · exact absurd g5 (by omega)
    · exact absurd htype (by simpa using g6)
    · rw [htime2] at g7; simp at g7
    · simp; omega
  · simp only [ProofValidator.validateProof, ProofValidator.MAX_PROOF_AGE_MS,
      ProofValidator.MIN_TRAJECTORY_POINTS, ProofValidator.MAX_VELOCITY]
    split_ifs with g1 g2 g3 g4 g5 g6 g7 g8 g9
    · simp; omega
    · simp; omega
    · exact absurd hctx g3
    · exact absurd g4 (by omega)
    · exact absurd g5 (by omega)
    · exact absurd htype (by simpa using g6)
    · exact absurd g7 (by simp; omega)
    · rw [htime] at g8; simp at g8
    · exact absurd g9 (by omega)
    · simp; omega

/-- Witness for C4 at concrete inputs around the boundary: the sample proof
(freshness 10000) is accepted by both validators at age exactly 5000 ms,
the server rejects it at age 5001 ms, and the signer rejects it at age
-1 ms. -/
theorem claim_C4_witness :
    (Validator.validateInteractionProof 15000 sampleProof sampleAction).valid
        = true
      ∧ ¬ ((Validator.validateInteractionProof 15001 sampleProof
            sampleAction).valid = true)
      ∧ (ProofValidator.validateProof 15000 sampleProof sampleAction).valid
        = true
      ∧ ¬ ((ProofValidator.validateProof 9999 sampleProof
            sampleAction).valid = true) :=
  ⟨((claim_C4 15000 sampleProof sampleAction (by decide) (by decide)
      (by decide) (by decide) (by decide) (by decide) (by decide)
      (by decide)).1).mpr (by decide),
   fun hv => absurd (((claim_C4 15001 sampleProof sampleAction (by decide)
      (by decide) (by decide) (by decide) (by decide) (by decide) (by decide)
      (by decide)).1).mp hv).2 (by decide),
   ((claim_C4 15000 sampleProof sampleAction (by decide) (by decide)
      (by decide) (by decide) (by decide) (by decide) (by decide)
      (by decide)).2).mpr (by decide),
   fun hv => absurd (((claim_C4 9999 sampleProof sampleAction (by decide)
      (by decide) (by decide) (by decide) (by decide) (by decide) (by decide)
      (by decide)).2).mp hv).1 (by decide)⟩

/-- C7: whenever the signer-side validator rejects a proof, `handleSign`
answers the structured error carrying exactly the validator's rejection
reason, carries no signature, and is independent of the signing oracle and
of the stored key pair — the private key is never used for a rejected
request. -/
theorem claim_C7 (now : Int) (action : Action) (proof : InteractionProof)
    (h : (ProofValidator.validateProof now proof action).valid = false) :
    ∀ (signData : Nat → String → String) (keyPair : Option KeyPair)
      (requestId : String) (nonce : String),
      SigningContext.handleSign signData now keyPair requestId action proof
          nonce
        = { requestId := requestId, success := false,
            error := (ProofValidator.validateProof now proof action).error }
    := by
  intro sd kp rid nonce
  simp [SigningContext.handleSign, h]

/-- Witness for C7 at a concrete input: a proof with velocity 99 px/ms is
rejected, and the response is the structured velocity error with no
signature, independent of the oracle and key pair supplied here. -/
theorem claim_C7_witness :
    SigningContext.handleSign (fun _ _ => "sig") 10500
        (some { privateKey := 1, publicKey := 2 }) "req1" sampleAction
        { sampleProof with velocity := 99 } "n1"
      = { requestId := "req1", success := false,
          error := some "Unrealistic mouse velocity detected" } :=
  (claim_C7 10500 sampleAction { sampleProof with velocity := 99 }
      (by decide) (fun _ _ => "sig")
      (some { privateKey := 1, publicKey := 2 }) "req1" "n1").trans
    (by decide)

theorem findRev_none_iff (now : Int) (name : String) :
    ∀ l : List RecordedInteraction,
      InteractionTracker.findRev now name l = none ↔
        ∀ r ∈ l, InteractionTracker.isMatch now name r = false
  | [] => by simp [InteractionTracker.findRev]
  | r :: rest => by
      simp only [InteractionTracker.findRev]
      by_cases hm : InteractionTracker.isMatch now name r = true
      · simp only [if_pos hm]
        constructor
        · intro h; exact absurd h (by simp)
        · intro h
          exact absurd hm (by simp [h r (List.mem_cons_self r rest)])
      · simp only [if_neg hm]
        have ih := findRev_none_iff now name rest
        constructor
        · intro h
          intro x hx
          rcases List.mem_cons.mp hx with rfl | hx2
          · simpa using hm
          · refine (ih.mp ?_) x hx2
            rcases hrec : InteractionTracker.findRev now name rest with _ | pair
            · rfl
            · rcases pair with ⟨m, rest2⟩
              rw [hrec] at h
              simp at h
        · intro h
          have : InteractionTracker.findRev now name rest = none :=
            ih.mpr (fun x hx => h x (List.mem_cons_of_mem r hx))
          rw [this]

theorem findRev_some (now : Int) (name : String) :
    ∀ {l : List RecordedInteraction} {m : RecordedInteraction}
      {rest : List RecordedInteraction},
      InteractionTracker.findRev now name l = some (m, rest) →
        InteractionTracker.isMatch now name m = true ∧
          List.Perm (m :: rest) l := by
  intro l
  induction l with
  | nil => intro m rest h; simp [InteractionTracker.findRev] at h
  | cons r tail ih =>
      intro m rest h
      simp only [InteractionTracker.findRev] at h
      by_cases hm : InteractionTracker.isMatch now name r = true
      · rw [if_pos hm] at h
        injection h with h2
        injection h2 with ha hb
        subst ha; subst hb
        exact ⟨hm, List.Perm.refl _⟩
      · rw [if_neg hm] at h
        rcases hrec : InteractionTracker.findRev now name tail with _ | pair
        · rw [hrec] at h; simp at h
        · rcases pair with ⟨m2, rest2⟩
          rw [hrec] at h
          simp only [Option.some.injEq, Prod.mk.injEq] at h
          obtain ⟨h1, h2⟩ := h
          subst h2
          subst h1
          have hres := ih hrec
          exact ⟨hres.1, (List.Perm.swap r m2 rest2).trans (hres.2.cons r)⟩

/-- C5: when `findMatchingInteraction` returns a record for an action, that
record is removed from the pending pool: the returned pool plus the record
is a permutation of the original pool (and the record satisfied the match
condition); if the pool held the record once, it is gone from the returned
pool; and if it was the only matching record, an immediate second call for
the same action returns None. -/
theorem claim_C5 (now : Int) (action : Action)
    (interactions : List RecordedInteraction) (r : RecordedInteraction)
    (rest : List RecordedInteraction)
    (h : InteractionTracker.findMatchingInteraction now action interactions
        = (some r, rest)) :
    List.Perm (r :: rest) interactions ∧
    InteractionTracker.isMatch now action.displayName r = true ∧
    (interactions.count r = 1 → r ∉ rest) ∧
    (interactions.countP
        (fun x => InteractionTracker.isMatch now action.displayName x) = 1 →
      (InteractionTracker.findMatchingInteraction now action rest).1
        = none) := by
  simp only [InteractionTracker.findMatchingInteraction] at h
  rcases hrec : InteractionTracker.findRev now action.displayName
      interactions.reverse with _ | pair
  · rw [hrec] at h; simp at h
  · rcases pair with ⟨m, rrest⟩
    rw [hrec] at h
    simp only [Prod.mk.injEq, Option.some.injEq] at h
    obtain ⟨h1, h2⟩ := h
    subst h2
    subst h1
    have hres := findRev_some now action.displayName hrec
    have hmatch := hres.1
    have hperm : List.Perm (m :: rrest) interactions.reverse := hres.2
    have hperm2 : List.Perm (m :: rrest.reverse) interactions :=
      ((rrest.reverse_perm.cons m).trans hperm).trans
        interactions.reverse_perm
    refine ⟨hperm2, hmatch, ?_, ?_⟩
    · intro hcount
      have hc2 : (m :: rrest.reverse).count m = 1 := by
        rw [hperm2.count_eq]; exact hcount
      rw [List.count_cons_self] at hc2
      have hc0 : rrest.reverse.count m = 0 := by omega
      exact List.count_eq_zero.mp hc0
    · intro hcount
      have hc2 : (m :: rrest.reverse).countP
          (fun x => InteractionTracker.isMatch now action.displayName x)
          = 1 := by
        rw [hperm2.countP_eq]; exact hcount
      simp only [List.countP_cons, hmatch, if_pos] at hc2
      have hzero : rrest.reverse.countP
          (fun x => InteractionTracker.isMatch now action.displayName x)
          = 0 := by omega
      have hnone2 : InteractionTracker.findRev now action.displayName
          rrest.reverse.reverse = none := by
        rw [findRev_none_iff]
        intro x hx
        have hx2 : x ∈ rrest.reverse := by
          simpa [List.mem_reverse] using hx
        have := List.countP_eq_zero.mp hzero x hx2
        simpa using this
      simp only [InteractionTracker.findMatchingInteraction, hnone2]

/-- Witness for C5 at a concrete input: in a pool holding one matching
record, the matcher returns and removes it, and a second call returns
None. -/
theorem claim_C5_witness :
    List.Perm (sampleRecorded :: ([] : List RecordedInteraction))
        [sampleRecorded] ∧
    InteractionTracker.isMatch 10000 sampleAction.displayName sampleRecorded
        = true ∧
    ([sampleRecorded].count sampleRecorded = 1 →
      sampleRecorded ∉ ([] : List RecordedInteraction)) ∧
    ([sampleRecorded].countP
        (fun x => InteractionTracker.isMatch 10000 sampleAction.displayName x)
        = 1 →
      (InteractionTracker.findMatchingInteraction 10000 sampleAction
          ([] : List RecordedInteraction)).1 = none) :=
  claim_C5 10000 sampleAction [sampleRecorded] sampleRecorded []
    (by decide)

theorem find?_filter_key_ne {α : Type} {k k2 : String} (h : k ≠ k2) :
    ∀ l : List (String × α),
      List.find? (fun kv => kv.1 == k)
          (l.filter (fun kv => !(kv.1 == k2)))
        = List.find? (fun kv => kv.1 == k) l
  | [] => rfl
  | a :: tl => by
      by_cases ha : a.1 = k
      · have hq : (!(a.1 == k2)) = true := by
          simp [ha, h]
        simp only [List.filter_cons, hq, if_pos]
        rw [List.find?_cons_of_pos _ (by simp [ha]),
          List.find?_cons_of_pos _ (by simp [ha])]
      · by_cases hb : a.1 = k2
        · have hq : (!(a.1 == k2)) = false := by simp [hb]
          simp only [List.filter_cons, hq, Bool.false_eq_true, if_neg,
            not_false_eq_true]
          rw [List.find?_cons_of_neg _ (by simp [ha])]
          exact find?_filter_key_ne h tl
        · have hq : (!(a.1 == k2)) = true := by simp [hb]
          simp only [List.filter_cons, hq, if_pos]
          rw [List.find?_cons_of_neg _ (by simp [ha]),
            List.find?_cons_of_neg _ (by simp [ha])]
          exact find?_filter_key_ne h tl

theorem lookupField_aset_self {α : Type} (k : String) (v : α)
    (l : List (String × α)) :
    lookupField k (aset k v l) = some v := by
  unfold lookupField aset
  rw [List.find?_cons_of_pos _ (by simp)]
  rfl

theorem lookupField_aset_ne {α : Type} {k k2 : String} (h : k ≠ k2) (v : α)
    (l : List (String × α)) :
    lookupField k (aset k2 v l) = lookupField k l := by
  unfold lookupField aset
  rw [List.find?_cons_of_neg _ (by simp [Ne.symm h])]
  rw [find?_filter_key_ne h l]

theorem lookupField_aerase_self {α : Type} (k : String)
    (l : List (String × α)) :
    lookupField k (aerase k l) = none := by
  unfold lookupField aerase
  have hnone : List.find? (fun kv => kv.1 == k)
      (l.filter (fun kv => !(kv.1 == k))) = none := by
    rw [List.find?_eq_none]
    intro a ha
    have := (List.mem_filter.mp ha).2
    simpa using this
  rw [hnone]
  rfl

theorem lookupField_aerase_ne {α : Type} {k k2 : String} (h : k ≠ k2)
    (l : List (String × α)) :
    lookupField k (aerase k2 l) = lookupField k l := by
  unfold lookupField aerase
  rw [find?_filter_key_ne h l]

theorem lookupField_aerase_none {α : Type} {k : String} (k2 : String)
    {l : List (String × α)} (h : lookupField k l = none) :
    lookupField k (aerase k2 l) = none := by
  by_cases hk : k = k2
  · subst hk; exact lookupField_aerase_self k l
  · rw [lookupField_aerase_ne hk l]; exact h

theorem sessionKey_ne_nonceKey (a b : String) :
    Store.sessionKey a ≠ Store.nonceKey b := by
  intro h
  have h2 : (Store.sessionKey a).data.head? = (Store.nonceKey b).data.head? :=
    by rw [h]
  rw [Store.sessionKey, Store.nonceKey, String.data_append,
    String.data_append] at h2
  simp [List.cons_append] at h2

theorem nonceKey_injective {a b : String}
    (h : Store.nonceKey a = Store.nonceKey b) : a = b := by
  rw [Store.nonceKey, Store.nonceKey] at h
  have h2 := congrArg String.data h
  rw [String.data_append, String.data_append] at h2
  have h3 := List.append_cancel_left h2
  exact String.ext h3

theorem sessionKey_injective {a b : String}
    (h : Store.sessionKey a = Store.sessionKey b) : a = b := by
  rw [Store.sessionKey, Store.sessionKey] at h
  have h2 := congrArg String.data h
  rw [String.data_append, String.data_append] at h2
  have h3 := List.append_cancel_left h2
  exact String.ext h3

theorem consume_snd (now : Int) (n : String) (st : Store.StoreState) :
    (Store.validateAndConsumeNonce now n st).2 = st ∨
    (Store.validateAndConsumeNonce now n st).2
      = { st with store := aerase (Store.nonceKey n) st.store,
                  expiry := aerase (Store.nonceKey n) st.expiry } := by
  unfold Store.validateAndConsumeNonce
  by_cases hr : st.redisMode
  · simp only [if_pos hr]
    rcases he : lookupField (Store.nonceKey n) st.expiry with _ | e
    · left; rfl
    · rcases hs : lookupField (Store.nonceKey n) st.store with _ | v
      · left; rfl
      · by_cases hgt : e > now
        · right; simp [hgt]
        · right; simp [hgt]
  · simp only [if_neg hr]
    rcases he : lookupField (Store.nonceKey n) st.expiry with _ | e
    · left; rfl
    · by_cases hgt : e > now
      · by_cases hv : lookupField (Store.nonceKey n) st.store
            == some (StoredValue.str "1")
        · right; simp [hgt, hv]
        · left; simp [hgt, hv]
      · left; simp [hgt]

theorem consume_false_of_absent (t : Int) (n : String) (st : Store.StoreState)
    (h : lookupField (Store.nonceKey n) st.store = none) :
    Store.validateAndConsumeNonce t n st = (false, st) := by
  unfold Store.validateAndConsumeNonce
  by_cases hr : st.redisMode
  · simp only [if_pos hr, h]
    rcases he : lookupField (Store.nonceKey n) st.expiry with _ | e <;> rfl
  · simp only [if_neg hr, h]
    rcases he : lookupField (Store.nonceKey n) st.expiry with _ | e
    · rfl
    · by_cases hgt : e > t
      · simp [hgt]
      · simp [hgt]

theorem consume_true_sound (now : Int) (n : String) (st : Store.StoreState)
    (h : (Store.validateAndConsumeNonce now n st).1 = true) :
    ∃ e, lookupField (Store.nonceKey n) st.expiry = some e ∧ e > now ∧
      lookupField (Store.nonceKey n) st.store
        = some (StoredValue.str "1") := by
  unfold Store.validateAndConsumeNonce at h
  by_cases hr : st.redisMode
  · simp only [if_pos hr] at h
    rcases he : lookupField (Store.nonceKey n) st.expiry with _ | e
    · rw [he] at h; simp at h
    · rcases hs : lookupField (Store.nonceKey n) st.store with _ | v
      · rw [he, hs] at h; simp at h
      · rw [he, hs] at h
        by_cases hgt : e > now
        · simp only [if_pos hgt] at h
          have hv : v = StoredValue.str "1" := by
            have := h
            simpa using this
          exact ⟨e, rfl, hgt, by rw [hv]⟩
        · simp [hgt] at h
  · simp only [if_neg hr] at h
    rcases he : lookupField (Store.nonceKey n) st.expiry with _ | e
    · rw [he] at h; simp at h
    · rw [he] at h
      by_cases hgt : e > now
      · simp only [if_pos hgt] at h
        by_cases hv : lookupField (Store.nonceKey n) st.store
            == some (StoredValue.str "1")
        · refine ⟨e, rfl, hgt, ?_⟩
          simpa using hv
        · simp [hv] at h
      · simp [hgt] at h

theorem consume_true_erases (now : Int) (n : String) (st : Store.StoreState)
    (h : (Store.validateAndConsumeNonce now n st).1 = true) :
    lookupField (Store.nonceKey n)
      (Store.validateAndConsumeNonce now n st).2.store = none := by
  unfold Store.validateAndConsumeNonce at h ⊢
  by_cases hr : st.redisMode
  · simp only [if_pos hr] at h ⊢
    rcases he : lookupField (Store.nonceKey n) st.expiry with _ | e
    · simp [he] at h
    · rcases hs : lookupField (Store.nonceKey n) st.store with _ | v
      · simp [he, hs] at h
      · simp only [he, hs]
        by_cases hgt : e > now
        · simp only [if_pos hgt]
          exact lookupField_aerase_self _ _
        · simp only [if_neg hgt]
          exact lookupField_aerase_self _ _
  · simp only [if_neg hr] at h ⊢
    rcases he : lookupField (Store.nonceKey n) st.expiry with _ | e
    · simp [he] at h
    · simp only [he] at h ⊢
      by_cases hgt : e > now
      · simp only [if_pos hgt] at h ⊢
        by_cases hv : lookupField (Store.nonceKey n) st.store
            == some (StoredValue.str "1")
        · simp only [hv, if_pos]
          exact lookupField_aerase_self _ _
        · simp [hv] at h
      · simp [hgt] at h

/-- C3: soundness and single use of `validateAndConsumeNonce`: (1) a call
returns true only when the nonce key is registered in the store with the
value "1" and an expiry still in the future; (2) after a call that returned
true the nonce key is gone from the store; (3) if a nonce's key is absent
(in particular, for a nonce never registered by `storeNonce` starting from
the empty store), then after any sequence of store/consume operations that
never stores that nonce, consuming it returns false — so a second call after
a true result always returns false, and unknown or expired nonces are always
refused. -/
theorem claim_C3 :
    (∀ (now : Int) (n : String) (st : Store.StoreState),
       (Store.validateAndConsumeNonce now n st).1 = true →
       ∃ e, lookupField (Store.nonceKey n) st.expiry = some e ∧ e > now ∧
         lookupField (Store.nonceKey n) st.store
           = some (StoredValue.str "1")) ∧
    (∀ (now : Int) (n : String) (st : Store.StoreState),
       (Store.validateAndConsumeNonce now n st).1 = true →
       lookupField (Store.nonceKey n)
         (Store.validateAndConsumeNonce now n st).2.store = none) ∧
    (∀ (n : String) (ops : List Store.NonceOp) (st : Store.StoreState)
       (t : Int),
       lookupField (Store.nonceKey n) st.store = none →
       (∀ t2, Store.NonceOp.store n t2 ∉ ops) →
       (Store.validateAndConsumeNonce t n (Store.runNonceOps st ops)).1
         = false) := by
  refine ⟨consume_true_sound, consume_true_erases, ?_⟩
  intro n ops
  induction ops with
  | nil =>
      intro st t habs hops
      simp only [Store.runNonceOps]
      rw [consume_false_of_absent t n st habs]
  | cons op rest ih =>
      intro st t habs hops
      cases op with
      | store n2 t2 =>
          have hne : n2 ≠ n := by
            intro he
            subst he
            exact hops t2 (List.mem_cons_self _ _)
          simp only [Store.runNonceOps]
          apply ih
          · simp only [Store.storeNonce]
            rw [lookupField_aset_ne (fun hk => hne (nonceKey_injective hk).symm)]
            exact habs
          · intro t3 hmem
            exact hops t3 (List.mem_cons_of_mem _ hmem)
      | consume n2 t2 =>
          simp only [Store.runNonceOps]
          apply ih
          · rcases consume_snd t2 n2 st with hsame | herase
            · rw [hsame]; exact habs
            · rw [herase]
              exact lookupField_aerase_none _ habs
          · intro t3 hmem
            exact hops t3 (List.mem_cons_of_mem _ hmem)

/-- Witness for C3 at concrete inputs: after storing nonce "n1" at time 0,
consuming it at time 1000 succeeds; the immediate second consume fails; and
a never-stored nonce "other" fails from the empty store. -/
theorem claim_C3_witness :
    (∃ e, lookupField (Store.nonceKey "n1")
        (Store.storeNonce 0 "n1"
          { redisMode := false, store := [], expiry := [] }).expiry
          = some e ∧ e > 1000 ∧
        lookupField (Store.nonceKey "n1")
          (Store.storeNonce 0 "n1"
            { redisMode := false, store := [], expiry := [] }).store
          = some (StoredValue.str "1")) ∧
    ((Store.validateAndConsumeNonce 1001 "n1"
        (Store.validateAndConsumeNonce 1000 "n1"
          (Store.storeNonce 0 "n1"
            { redisMode := false, store := [], expiry := [] })).2).1
      = false) ∧
    ((Store.validateAndConsumeNonce 5 "other"
        (Store.runNonceOps { redisMode := false, store := [], expiry := [] }
          [Store.NonceOp.store "n1" 0])).1 = false) :=
  ⟨claim_C3.1 1000 "n1"
      (Store.storeNonce 0 "n1" { redisMode := false, store := [], expiry := [] })
      (by decide),
   by
    have h2 := claim_C3.2.1 1000 "n1"
      (Store.storeNonce 0 "n1" { redisMode := false, store := [], expiry := [] })
      (by decide)
    have h3 := claim_C3.2.2 "n1" []
      (Store.validateAndConsumeNonce 1000 "n1"
        (Store.storeNonce 0 "n1"
          { redisMode := false, store := [], expiry := [] })).2
      1001 h2 (by intro t2 hmem; exact List.not_mem_nil _ hmem)
    simpa [Store.runNonceOps] using h3,
   claim_C3.2.2 "other" [Store.NonceOp.store "n1" 0]
      { redisMode := false, store := [], expiry := [] } 5 (by decide)
      (by
        intro t2 hmem
        simp only [List.mem_singleton] at hmem
        injection hmem with h1 h2
        exact absurd h1 (by decide))⟩

theorem contextMismatchError_head (s1 s2 : String) :
    (Validator.contextMismatchError s1 s2).data.head? = some 'A' := by
  rw [Validator.contextMismatchError]
  rw [String.data_append, String.data_append, String.data_append,
    String.data_append]
  rfl

theorem validator_error_head (now : Int) (p : InteractionProof) (a : Action)
    (hctx : p.actionContext = a.displayName) :
    (Validator.validateInteractionProof now p a).error = none ∨
    ∃ c, (Validator.validateInteractionProof now p a).error = some c ∧
      c.data.head? ≠ some 'A' := by
  simp only [Validator.validateInteractionProof]
  split_ifs with g1 g2 g3 g4 g5 g6 g7
  · right; exact ⟨_, rfl, by decide⟩
  · right; exact ⟨_, rfl, by decide⟩
  · exact absurd hctx g3
  · right; exact ⟨_, rfl, by decide⟩
  · right; exact ⟨_, rfl, by decide⟩
  · right; exact ⟨_, rfl, by decide⟩
  · right; exact ⟨_, rfl, by decide⟩
  · left; rfl

theorem verifyRequest_error_shape
    (sv : String → String → Action → InteractionProof → String → Bool)
    (now : Int) (inp : VerifyInput) (st : Store.StoreState) :
    (Server.verifyRequest sv now inp st).1.error = none ∨
    ∃ c, (Server.verifyRequest sv now inp st).1.error = some c ∧
      c.data.head? ≠ some 'A' := by
  rcases inp with ⟨sidh, sigh, proofh, path, body⟩
  cases sidh with
  | none =>
      right
      exact ⟨"Missing X-Session-ID header",
        by simp [Server.verifyRequest], by decide⟩
  | some sessionId =>
  cases sigh with
  | none =>
      right
      exact ⟨"Missing X-Signature header",
        by simp [Server.verifyRequest], by decide⟩
  | some signature =>
  cases proofh with
  | none =>
      right
      exact ⟨"Missing X-Interaction-Proof header",
        by simp [Server.verifyRequest], by decide⟩
  | some proofParse =>
  rcases hg : Store.getSession now sessionId st with ⟨sopt, st1⟩
  cases sopt with
  | none =>
      right
      exact ⟨"Invalid or expired session",
        by simp [Server.verifyRequest, hg], by decide⟩
  | some session =>
  cases proofParse with
  | none =>
      right
      exact ⟨"Invalid interaction proof format",
        by simp [Server.verifyRequest, hg], by decide⟩
  | some proof =>
  by_cases hn : proof.nonce = ""
  · right
    exact ⟨"Missing nonce in proof",
      by simp [Server.verifyRequest, hg, hn], by decide⟩
  · rcases hc : Store.validateAndConsumeNonce now proof.nonce st1
        with ⟨okb, st2⟩
    cases okb with
    | false =>
        right
        exact ⟨"Invalid or reused nonce",
          by simp [Server.verifyRequest, hg, hn, hc], by decide⟩
    | true =>
    cases body with
    | none =>
        right
        exact ⟨"Invalid request body",
          by simp [Server.verifyRequest, hg, hn, hc], by decide⟩
    | some bodyJson =>
    by_cases hv : (Validator.validateInteractionProof now proof
        (Server.serverAction path bodyJson proof)).valid = false
    · rcases validator_error_head now proof
          (Server.serverAction path bodyJson proof) rfl with h | ⟨c, hcq, hh⟩
      · left
        simp [Server.verifyRequest, hg, hn, hc, hv, h]
      · right
        refine ⟨c, ?_, hh⟩
        simp [Server.verifyRequest, hg, hn, hc, hv, hcq]
    · by_cases hs : sv session.publicKey signature
          (Server.serverAction path bodyJson proof) proof proof.nonce = false
      · right
        exact ⟨"Signature verification failed",
          by simp [Server.verifyRequest, hg, hn, hc, hv, hs], by decide⟩
      · left
        simp [Server.verifyRequest, hg, hn, hc, hv, hs]

/-- C9 (implicit): the server rebuilds the action for a protected request
with `displayName` taken from the proof's own `actionContext`, so the
context-match condition of the server-side validator can never fire inside
`verifyRequest`: no run of `verifyRequest` ever returns the "Action context
mismatch" rejection — the server does not independently enforce the
action/label binding. -/
theorem claim_C9 :
    (∀ (path : String) (body : Json) (p : InteractionProof),
       (Server.serverAction path body p).displayName = p.actionContext) ∧
    (∀ (sv : String → String → Action → InteractionProof → String → Bool)
       (now : Int) (inp : VerifyInput) (st : Store.StoreState)
       (s1 s2 : String),
       (Server.verifyRequest sv now inp st).1.error
         ≠ some (Validator.contextMismatchError s1 s2)) := by
  constructor
  · intro path body p
    rfl
  · intro sv now inp st s1 s2 he
    rcases verifyRequest_error_shape sv now inp st with h | ⟨c, hc, hh⟩
    · rw [h] at he
      exact Option.noConfusion he
    · rw [hc] at he
      injection he with he2
      rw [he2] at hh
      exact hh (contextMismatchError_head s1 s2)

/-- Witness for C9 at concrete inputs: the reconstructed action's display
name is the proof's own context, and a concrete run of `verifyRequest` does
not produce a context-mismatch error. -/
theorem claim_C9_witness :
    (Server.serverAction "/api/transfer" Json.null sampleProof).displayName
        = sampleProof.actionContext ∧
    (Server.verifyRequest (fun _ _ _ _ _ => true) 100
        { sessionIdHeader := none, signatureHeader := none,
          proofHeader := none, path := "/api/transfer", body := none }
        { redisMode := true, store := [], expiry := [] }).1.error
      ≠ some (Validator.contextMismatchError "Transfer" "Delete") :=
  ⟨claim_C9.1 "/api/transfer" Json.null sampleProof,
   claim_C9.2 (fun _ _ _ _ _ => true) 100
     { sessionIdHeader := none, signatureHeader := none,
       proofHeader := none, path := "/api/transfer", body := none }
     { redisMode := true, store := [], expiry := [] } "Transfer" "Delete"⟩

theorem getSession_fst_some_snd (now : Int) (sid : String)
    (st : Store.StoreState) {s : Session}
    (h : (Store.getSession now sid st).1 = some s) :
    (Store.getSession now sid st).2 = st := by
  simp only [Store.getSession] at h ⊢
  by_cases hr : st.redisMode
  · simp only [if_pos hr] at h ⊢
    rcases he : lookupField (Store.sessionKey sid) st.expiry with _ | e <;>
      rcases hs : lookupField (Store.sessionKey sid) st.store with _ | v <;>
      simp only [he, hs] at h ⊢
    cases v with
    | str s2 => simp at h
    | sess s2 =>
        by_cases hgt : e > now
        · simp [hgt]
        · simp [hgt] at h
  · simp only [if_neg hr] at h ⊢
    rcases he : lookupField (Store.sessionKey sid) st.expiry with _ | e <;>
      simp only [he] at h ⊢
    · simp at h
    · by_cases hgt : e > now
      · simp [hgt]
      · simp [hgt] at h

theorem getSession_snd_cases (now : Int) (sid : String)
    (st : Store.StoreState) :
    (Store.getSession now sid st).2 = st ∨
    ((Store.getSession now sid st).2
        = { st with store := aerase (Store.sessionKey sid) st.store,
                    expiry := aerase (Store.sessionKey sid) st.expiry } ∧
      (lookupField (Store.sessionKey sid) st.expiry = none ∨
        ∃ e, lookupField (Store.sessionKey sid) st.expiry = some e ∧
          ¬ e > now)) := by
  simp only [Store.getSession]
  by_cases hr : st.redisMode
  · simp only [if_pos hr]
    rcases he : lookupField (Store.sessionKey sid) st.expiry with _ | e <;>
      rcases hs : lookupField (Store.sessionKey sid) st.store with _ | v
    · left; rfl
    · left; rfl
    · left; rfl
    · cases v with
      | str s2 => left; rfl
      | sess s2 =>
          by_cases hgt : e > now
          · left; simp [hgt]
          · left; simp [hgt]
  · simp only [if_neg hr]
    rcases he : lookupField (Store.sessionKey sid) st.expiry with _ | e
    · right
      constructor
      · rfl
      · left; rfl
    · by_cases hgt : e > now
      · left; simp [hgt]
      · right
        constructor
        · simp [hgt]
        · right; exact ⟨e, rfl, hgt⟩

theorem getSession_redis_snd (now : Int) (sid : String)
    (st : Store.StoreState) (hr : st.redisMode = true) :
    (Store.getSession now sid st).2 = st := by
  rcases getSession_snd_cases now sid st with h | ⟨h, _⟩
  · exact h
  · rw [h]
    simp only [Store.getSession] at h
    rw [if_pos hr] at h
    rcases he : lookupField (Store.sessionKey sid) st.expiry with _ | e <;>
      rcases hs : lookupField (Store.sessionKey sid) st.store with _ | v <;>
      simp only [he, hs] at h
    · exact h.symm
    · exact h.symm
    · exact h.symm
    · cases v with
      | str s2 => exact h.symm
      | sess s2 =>
          by_cases hgt : e > now
          · simp [hgt] at h
            exact h.symm
          · simp [hgt] at h
            exact h.symm

theorem getSession_fst_congr (now : Int) (sid : String)
    (st st2 : Store.StoreState) (hmode : st2.redisMode = st.redisMode)
    (hexp : lookupField (Store.sessionKey sid) st2.expiry
      = lookupField (Store.sessionKey sid) st.expiry)
    (hsto : lookupField (Store.sessionKey sid) st2.store
      = lookupField (Store.sessionKey sid) st.store) :
    (Store.getSession now sid st2).1 = (Store.getSession now sid st).1 := by
  simp only [Store.getSession]
  rw [hmode, hexp, hsto]
  by_cases hr : st.redisMode
  · simp only [if_pos hr]
    rcases he : lookupField (Store.sessionKey sid) st.expiry with _ | e <;>
      rcases hs : lookupField (Store.sessionKey sid) st.store with _ | v
    · rfl
    · rfl
    · rfl
    · cases v with
      | str s2 => rfl
      | sess s2 => by_cases hgt : e > now <;> simp [hgt]
  · simp only [if_neg hr]
    rcases he : lookupField (Store.sessionKey sid) st.expiry with _ | e
    · rfl
    · by_cases hgt : e > now <;> simp [hgt]

theorem consume_preserves_session (now : Int) (n : String)
    (st : Store.StoreState) (sid : String) :
    (Store.validateAndConsumeNonce now n st).2.redisMode = st.redisMode ∧
    lookupField (Store.sessionKey sid)
        (Store.validateAndConsumeNonce now n st).2.expiry
      = lookupField (Store.sessionKey sid) st.expiry ∧
    lookupField (Store.sessionKey sid)
        (Store.validateAndConsumeNonce now n st).2.store
      = lookupField (Store.sessionKey sid) st.store := by
  rcases consume_snd now n st with h | h <;> rw [h]
  · exact ⟨rfl, rfl, rfl⟩
  · refine ⟨rfl, ?_, ?_⟩
    · exact lookupField_aerase_ne (sessionKey_ne_nonceKey sid n) _
    · exact lookupField_aerase_ne (sessionKey_ne_nonceKey sid n) _

theorem getSession_preserves_nonce (now : Int) (sid : String)
    (st : Store.StoreState) (n : String) :
    (Store.getSession now sid st).2.redisMode = st.redisMode ∧
    lookupField (Store.nonceKey n) (Store.getSession now sid st).2.expiry
      = lookupField (Store.nonceKey n) st.expiry ∧
    lookupField (Store.nonceKey n) (Store.getSession now sid st).2.store
      = lookupField (Store.nonceKey n) st.store := by
  rcases getSession_snd_cases now sid st with h | ⟨h, _⟩ <;> rw [h]
  · exact ⟨rfl, rfl, rfl⟩
  · refine ⟨rfl, ?_, ?_⟩
    · exact lookupField_aerase_ne
        (fun hk => sessionKey_ne_nonceKey sid n hk.symm) _
    · exact lookupField_aerase_ne
        (fun hk => sessionKey_ne_nonceKey sid n hk.symm) _

theorem storeSession_preserves_nonce (now : Int) (s : Session)
    (st : Store.StoreState) (n : String) :
    (Store.storeSession now s st).redisMode = st.redisMode ∧
    lookupField (Store.nonceKey n) (Store.storeSession now s st).expiry
      = lookupField (Store.nonceKey n) st.expiry ∧
    lookupField (Store.nonceKey n) (Store.storeSession now s st).store
      = lookupField (Store.nonceKey n) st.store := by
  refine ⟨rfl, ?_, ?_⟩
  · exact lookupField_aset_ne
      (fun hk => sessionKey_ne_nonceKey s.sessionId n hk.symm) _ _
  · exact lookupField_aset_ne
      (fun hk => sessionKey_ne_nonceKey s.sessionId n hk.symm) _ _

theorem touch_preserves_nonce (now : Int) (sid : String)
    (st : Store.StoreState) (n : String) :
    (Store.touchSession now sid st).redisMode = st.redisMode ∧
    lookupField (Store.nonceKey n) (Store.touchSession now sid st).expiry
      = lookupField (Store.nonceKey n) st.expiry ∧
    lookupField (Store.nonceKey n) (Store.touchSession now sid st).store
      = lookupField (Store.nonceKey n) st.store := by
  have hgs := getSession_preserves_nonce now sid st n
  unfold Store.touchSession
  rcases hg : Store.getSession now sid st with ⟨sopt, st1⟩
  rw [hg] at hgs
  cases sopt with
  | none => exact hgs
  | some s =>
      have hss := storeSession_preserves_nonce now
        { s with lastAccess := now } st1 n
      exact ⟨hss.1.trans hgs.1, hss.2.1.trans hgs.2.1,
        hss.2.2.trans hgs.2.2⟩

theorem getSession_fst_store_self (now : Int) (s : Session)
    (st : Store.StoreState) :
    (Store.getSession now s.sessionId (Store.storeSession now s st)).1
      = some s := by
  have hexp := lookupField_aset_self (Store.sessionKey s.sessionId)
    (now + Store.SESSION_TTL * 1000) st.expiry
  have hsto := lookupField_aset_self (Store.sessionKey s.sessionId)
    (StoredValue.sess s) st.store
  have hgt : now + Store.SESSION_TTL * 1000 > now := by
    simp only [Store.SESSION_TTL]
    omega
  by_cases hr : st.redisMode = true
  · simp [Store.getSession, Store.storeSession, hr, hexp, hsto, hgt]
  · simp [Store.getSession, Store.storeSession, hr, hexp, hsto, hgt]

theorem getSession_fst_store_ne (now : Int) (sid : String) (s : Session)
    (st : Store.StoreState) (h : s.sessionId ≠ sid) :
    (Store.getSession now sid (Store.storeSession now s st)).1
      = (Store.getSession now sid st).1 := by
  refine getSession_fst_congr now sid st _ rfl ?_ ?_
  · exact lookupField_aset_ne
      (fun hk => h (sessionKey_injective hk).symm) _ _
  · exact lookupField_aset_ne
      (fun hk => h (sessionKey_injective hk).symm) _ _

theorem touch_eq_storeSession (now : Int) (sid : String)
    (st : Store.StoreState) {s : Session}
    (h : (Store.getSession now sid st).1 = some s) :
    Store.touchSession now sid st
      = Store.storeSession now { s with lastAccess := now } st := by
  have hsnd := getSession_fst_some_snd now sid st h
  unfold Store.touchSession
  rcases hg : Store.getSession now sid st with ⟨sopt, st1⟩
  rw [hg] at h hsnd
  cases sopt with
  | none => exact absurd h (by simp)
  | some s2 =>
      have hs2 : s2 = s := by simpa using h
      have hst1 : st1 = st := by simpa using hsnd
      subst hs2
      subst hst1
      rfl

theorem touch_fst_isSome (now : Int) (sid : String) (st : Store.StoreState)
    {s : Session} (h : (Store.getSession now sid st).1 = some s) :
    ∃ s2, (Store.getSession now sid (Store.touchSession now sid st)).1
      = some s2 := by
  rw [touch_eq_storeSession now sid st h]
  by_cases hid : ({ s with lastAccess := now } : Session).sessionId = sid
  · refine ⟨{ s with lastAccess := now }, ?_⟩
    rw [← hid]
    exact getSession_fst_store_self now { s with lastAccess := now } st
  · refine ⟨s, ?_⟩
    rw [getSession_fst_store_ne now sid { s with lastAccess := now } st hid]
    exact h

/-- C6: in `verifyRequest` the nonce is consumed before body parsing, proof
validation and signature verification, every failed check short-circuits to
a rejection, and no failure path restores the nonce. Stated for any request
that reaches nonce consumption successfully (headers present, session
resolved, proof parsed, nonce present, consumption returns true): whatever
happens afterwards — body-parse failure, proof-validation failure,
signature failure, or full success — the nonce key is gone from the
resulting store, and replaying the identical request against the resulting
state is rejected with "Invalid or reused nonce" without changing the state
again. -/
theorem claim_C6
    (sv sv2 : String → String → Action → InteractionProof → String → Bool)
    (now : Int) (inp : VerifyInput) (st : Store.StoreState)
    (sid sg : String) (proof : InteractionProof) (session : Session)
    (hsid : inp.sessionIdHeader = some sid)
    (hsig : inp.signatureHeader = some sg)
    (hproof : inp.proofHeader = some (some proof))
    (hn : proof.nonce ≠ "")
    (hsess : (Store.getSession now sid st).1 = some session)
    (hcons : (Store.validateAndConsumeNonce now proof.nonce st).1 = true) :
    lookupField (Store.nonceKey proof.nonce)
        (Server.verifyRequest sv now inp st).2.store = none ∧
    Server.verifyRequest sv2 now inp (Server.verifyRequest sv now inp st).2
      = ({ valid := false, session := none,
           error := some "Invalid or reused nonce" },
         (Server.verifyRequest sv now inp st).2) := by
  have hsnd : (Store.getSession now sid st).2 = st :=
    getSession_fst_some_snd now sid st hsess
  have hg : Store.getSession now sid st = (some session, st) := by
    have he := (Prod.mk.eta (p := Store.getSession now sid st)).symm
    rw [hsess, hsnd] at he
    exact he
  have hgone0 := consume_true_erases now proof.nonce st hcons
  have hpres := consume_preserves_session now proof.nonce st sid
  rcases hcq : Store.validateAndConsumeNonce now proof.nonce st
      with ⟨okb, st2⟩
  rw [hcq] at hcons hgone0 hpres
  have hok : okb = true := hcons
  subst hok
  have hgone : lookupField (Store.nonceKey proof.nonce) st2.store = none :=
    hgone0
  have hsess2 : (Store.getSession now sid st2).1 = some session := by
    rw [getSession_fst_congr now sid st st2 hpres.1 hpres.2.1 hpres.2.2]
    exact hsess
  have hsnd2 : (Store.getSession now sid st2).2 = st2 :=
    getSession_fst_some_snd now sid st2 hsess2
  have hg2 : Store.getSession now sid st2 = (some session, st2) := by
    have he := (Prod.mk.eta (p := Store.getSession now sid st2)).symm
    rw [hsess2, hsnd2] at he
    exact he
  have hc2 := consume_false_of_absent now proof.nonce st2 hgone
  cases hbody : inp.body with
  | none =>
      have hRsnd : (Server.verifyRequest sv now inp st).2 = st2 := by
        simp [Server.verifyRequest, hsid, hsig, hproof, hg, hn, hcq, hbody]
      rw [hRsnd]
      refine ⟨hgone, ?_⟩
      simp [Server.verifyRequest, hsid, hsig, hproof, hg2, hn, hc2, hbody]
  | some bodyJson =>
      by_cases hv : (Validator.validateInteractionProof now proof
          (Server.serverAction inp.path bodyJson proof)).valid = false
      · have hRsnd : (Server.verifyRequest sv now inp st).2 = st2 := by
          simp [Server.verifyRequest, hsid, hsig, hproof, hg, hn, hcq,
            hbody, hv]
        rw [hRsnd]
        refine ⟨hgone, ?_⟩
        simp [Server.verifyRequest, hsid, hsig, hproof, hg2, hn, hc2,
          hbody, hv]
      · by_cases hs : sv session.publicKey sg
            (Server.serverAction inp.path bodyJson proof) proof proof.nonce
            = false
        · have hRsnd : (Server.verifyRequest sv now inp st).2 = st2 := by
            simp [Server.verifyRequest, hsid, hsig, hproof, hg, hn, hcq,
              hbody, hv, hs]
          rw [hRsnd]
          refine ⟨hgone, ?_⟩
          simp [Server.verifyRequest, hsid, hsig, hproof, hg2, hn, hc2,
            hbody, hv]
        · have hRsnd : (Server.verifyRequest sv now inp st).2
              = Store.touchSession now sid st2 := by
            simp [Server.verifyRequest, hsid, hsig, hproof, hg, hn, hcq,
              hbody, hv, hs]
          rw [hRsnd]
          have htpres := touch_preserves_nonce now sid st2 proof.nonce
          have hgoneT : lookupField (Store.nonceKey proof.nonce)
              (Store.touchSession now sid st2).store = none := by
            rw [htpres.2.2]
            exact hgone
          refine ⟨hgoneT, ?_⟩
          obtain ⟨s2, hs2⟩ := touch_fst_isSome now sid st2 hsess2
          have hsndT := getSession_fst_some_snd now sid
            (Store.touchSession now sid st2) hs2
          have hg3 : Store.getSession now sid
              (Store.touchSession now sid st2)
              = (some s2, Store.touchSession now sid st2) := by
            have he := (Prod.mk.eta (p := Store.getSession now sid
              (Store.touchSession now sid st2))).symm
            rw [hs2, hsndT] at he
            exact he
          have hc3 := consume_false_of_absent now proof.nonce
            (Store.touchSession now sid st2) hgoneT
          simp [Server.verifyRequest, hsid, hsig, hproof, hg3, hn, hc3]

/-- Witness for C6 at concrete inputs: a fully successful protected request
consumes its nonce, and replaying the identical request is rejected with
"Invalid or reused nonce" without further state change. -/
theorem claim_C6_witness :
    lookupField (Store.nonceKey sampleProof.nonce)
        (Server.verifyRequest (fun _ _ _ _ _ => true) 10500 sampleInput
          sampleStore).2.store = none ∧
    Server.verifyRequest (fun _ _ _ _ _ => true) 10500 sampleInput
        (Server.verifyRequest (fun _ _ _ _ _ => true) 10500 sampleInput
          sampleStore).2
      = ({ valid := false, session := none,
           error := some "Invalid or reused nonce" },
         (Server.verifyRequest (fun _ _ _ _ _ => true) 10500 sampleInput
           sampleStore).2) :=
  claim_C6 (fun _ _ _ _ _ => true) (fun _ _ _ _ _ => true) 10500
    sampleInput sampleStore "s1" "sig" sampleProof sampleSession
    rfl rfl rfl (by decide) (by decide) (by decide)

theorem view_getSession (now : Int) (sid sid2 : String)
    (st : Store.StoreState) :
    Store.sessionView now sid2 (Store.getSession now sid st).2
      = Store.sessionView now sid2 st := by
  rcases getSession_snd_cases now sid st with h | ⟨h, hcond⟩
  · rw [h]
  · rw [h]
    by_cases hid : sid2 = sid
    · subst hid
      unfold Store.sessionView
      simp only [lookupField_aerase_self]
      rcases hcond with hnone | ⟨e, he, hgt⟩
      · rw [hnone]
      · rw [he]
        rcases hs : lookupField (Store.sessionKey sid2) st.store with _ | v
        · rfl
        · cases v with
          | str s2 => rfl
          | sess s2 => simp [hgt]
    · unfold Store.sessionView
      rw [lookupField_aerase_ne
          (fun hk => hid (sessionKey_injective hk)) st.expiry,
        lookupField_aerase_ne
          (fun hk => hid (sessionKey_injective hk)) st.store]

theorem view_consume (now now2 : Int) (sid2 n : String)
    (st : Store.StoreState) :
    Store.sessionView now sid2 (Store.validateAndConsumeNonce now2 n st).2
      = Store.sessionView now sid2 st := by
  rcases consume_snd now2 n st with h | h <;> rw [h]
  unfold Store.sessionView
  rw [lookupField_aerase_ne (sessionKey_ne_nonceKey sid2 n) st.expiry,
    lookupField_aerase_ne (sessionKey_ne_nonceKey sid2 n) st.store]

theorem getSession_preserves_mode (now : Int) (sid : String)
    (st : Store.StoreState) :
    (Store.getSession now sid st).2.redisMode = st.redisMode := by
  rcases getSession_snd_cases now sid st with h | ⟨h, _⟩ <;> rw [h]

/-- C10 (amended): on every rejected protected request, no live session
record changes — the live-session view of the store is unchanged for every
session id, and in Redis mode the raw session entries are unchanged
verbatim. (`touchSession` runs only after every check has succeeded; the
only other mutations a rejected request can make are the consumed nonce
entry and, in the in-memory fallback, the lazy deletion of an
already-expired session entry during lookup, which does not change the live
view.) -/
theorem claim_C10
    (sv : String → String → Action → InteractionProof → String → Bool)
    (now : Int) (inp : VerifyInput) (st : Store.StoreState)
    (h : (Server.verifyRequest sv now inp st).1.valid = false) :
    (∀ sid2, Store.sessionView now sid2
        (Server.verifyRequest sv now inp st).2
      = Store.sessionView now sid2 st) ∧
    (st.redisMode = true → ∀ sid2,
      lookupField (Store.sessionKey sid2)
          (Server.verifyRequest sv now inp st).2.store
        = lookupField (Store.sessionKey sid2) st.store ∧
      lookupField (Store.sessionKey sid2)
          (Server.verifyRequest sv now inp st).2.expiry
        = lookupField (Store.sessionKey sid2) st.expiry) := by
  obtain ⟨sidh, sigh, proofh, path, body⟩ := inp
  cases sidh with
  | none =>
      constructor
      · intro sid2; simp [Server.verifyRequest]
      · intro hr sid2
        constructor <;> simp [Server.verifyRequest]
  | some sessionId =>
  cases sigh with
  | none =>
      constructor
      · intro sid2; simp [Server.verifyRequest]
      · intro hr sid2
        constructor <;> simp [Server.verifyRequest]
  | some signature =>
  cases proofh with
  | none =>
      constructor
      · intro sid2; simp [Server.verifyRequest]
      · intro hr sid2
        constructor <;> simp [Server.verifyRequest]
  | some proofParse =>
  rcases hgq : Store.getSession now sessionId st with ⟨sopt, st1⟩
  have hst1 : st1 = (Store.getSession now sessionId st).2 := by rw [hgq]
  have hview1 : ∀ sid2, Store.sessionView now sid2 st1
      = Store.sessionView now sid2 st := by
    intro sid2
    rw [hst1]
    exact view_getSession now sessionId sid2 st
  have hredis1 : st.redisMode = true → st1 = st := by
    intro hr
    rw [hst1]
    exact getSession_redis_snd now sessionId st hr
  cases sopt with
  | none =>
      constructor
      · intro sid2
        have hR : (Server.verifyRequest sv now
            ⟨some sessionId, some signature, some proofParse, path, body⟩
            st).2 = st1 := by
          simp [Server.verifyRequest, hgq]
        rw [hR]
        exact hview1 sid2
      · intro hr sid2
        have hR : (Server.verifyRequest sv now
            ⟨some sessionId, some signature, some proofParse, path, body⟩
            st).2 = st1 := by
          simp [Server.verifyRequest, hgq]
        rw [hR, hredis1 hr]
        exact ⟨rfl, rfl⟩
  | some session =>
  cases proofParse with
  | none =>
      constructor
      · intro sid2
        have hR : (Server.verifyRequest sv now
            ⟨some sessionId, some signature, some (none), path, body⟩
            st).2 = st1 := by
          simp [Server.verifyRequest, hgq]
        rw [hR]
        exact hview1 sid2
      · intro hr sid2
        have hR : (Server.verifyRequest sv now
            ⟨some sessionId, some signature, some (none), path, body⟩
            st).2 = st1 := by
          simp [Server.verifyRequest, hgq]
        rw [hR, hredis1 hr]
        exact ⟨rfl, rfl⟩
  | some proof =>
  by_cases hn : proof.nonce = ""
  · constructor
    · intro sid2
      have hR : (Server.verifyRequest sv now
          ⟨some sessionId, some signature, some (some proof), path, body⟩
          st).2 = st1 := by
        simp [Server.verifyRequest, hgq, hn]
      rw [hR]
      exact hview1 sid2
    · intro hr sid2
      have hR : (Server.verifyRequest sv now
          ⟨some sessionId, some signature, some (some proof), path, body⟩
          st).2 = st1 := by
        simp [Server.verifyRequest, hgq, hn]
      rw [hR, hredis1 hr]
      exact ⟨rfl, rfl⟩
  · rcases hcq : Store.validateAndConsumeNonce now proof.nonce st1
        with ⟨okb, st2⟩
    have hst2 : st2 = (Store.validateAndConsumeNonce now proof.nonce st1).2
        := by rw [hcq]
    have hview2 : ∀ sid2, Store.sessionView now sid2 st2
        = Store.sessionView now sid2 st := by
      intro sid2
      rw [hst2, view_consume now now sid2 proof.nonce st1]
      exact hview1 sid2
    have hredis2 : st.redisMode = true → ∀ sid2,
        lookupField (Store.sessionKey sid2) st2.store
          = lookupField (Store.sessionKey sid2) st.store ∧
        lookupField (Store.sessionKey sid2) st2.expiry
          = lookupField (Store.sessionKey sid2) st.expiry := by
      intro hr sid2
      have hp := consume_preserves_session now proof.nonce st1 sid2
      rw [← hst2] at hp
      rw [hredis1 hr] at hp
      exact ⟨hp.2.2, hp.2.1⟩
    cases okb with
    | false =>
        constructor
        · intro sid2
          have hR : (Server.verifyRequest sv now
              ⟨some sessionId, some signature, some (some proof), path,
                body⟩ st).2 = st2 := by
            simp [Server.verifyRequest, hgq, hn, hcq]
          rw [hR]
          exact hview2 sid2
        · intro hr sid2
          have hR : (Server.verifyRequest sv now
              ⟨some sessionId, some signature, some (some proof), path,
                body⟩ st).2 = st2 := by
            simp [Server.verifyRequest, hgq, hn, hcq]
          rw [hR]
          exact hredis2 hr sid2
    | true =>
    cases body with
    | none =>
        constructor
        · intro sid2
          have hR : (Server.verifyRequest sv now
              ⟨some sessionId, some signature, some (some proof), path,
                none⟩ st).2 = st2 := by
            simp [Server.verifyRequest, hgq, hn, hcq]
          rw [hR]
          exact hview2 sid2
        · intro hr sid2
          have hR : (Server.verifyRequest sv now
              ⟨some sessionId, some signature, some (some proof), path,
                none⟩ st).2 = st2 := by
            simp [Server.verifyRequest, hgq, hn, hcq]
          rw [hR]
          exact hredis2 hr sid2
    | some bodyJson =>
    by_cases hv : (Validator.validateInteractionProof now proof
        (Server.serverAction path bodyJson proof)).valid = false
    · constructor
      · intro sid2
        have hR : (Server.verifyRequest sv now
            ⟨some sessionId, some signature, some (some proof), path,
              some bodyJson⟩ st).2 = st2 := by
          simp [Server.verifyRequest, hgq, hn, hcq, hv]
        rw [hR]
        exact hview2 sid2
      · intro hr sid2
        have hR : (Server.verifyRequest sv now
            ⟨some sessionId, some signature, some (some proof), path,
              some bodyJson⟩ st).2 = st2 := by
          simp [Server.verifyRequest, hgq, hn, hcq, hv]
        rw [hR]
        exact hredis2 hr sid2
    · by_cases hs : sv session.publicKey signature
          (Server.serverAction path bodyJson proof) proof proof.nonce
          = false
      · constructor
        · intro sid2
          have hR : (Server.verifyRequest sv now
              ⟨some sessionId, some signature, some (some proof), path,
                some bodyJson⟩ st).2 = st2 := by
            simp [Server.verifyRequest, hgq, hn, hcq, hv, hs]
          rw [hR]
          exact hview2 sid2
        · intro hr sid2
          have hR : (Server.verifyRequest sv now
              ⟨some sessionId, some signature, some (some proof), path,
                some bodyJson⟩ st).2 = st2 := by
            simp [Server.verifyRequest, hgq, hn, hcq, hv, hs]
          rw [hR]
          exact hredis2 hr sid2
      · exfalso
        have hval : (Server.verifyRequest sv now
            ⟨some sessionId, some signature, some (some proof), path,
              some bodyJson⟩ st).1.valid = true := by
          simp [Server.verifyRequest, hgq, hn, hcq, hv, hs]
        rw [hval] at h
        exact absurd h (by decide)

/-- C10 counterexample: in the in-memory fallback, a protected request
naming an expired session is rejected, yet the stored (expired) session
record has been deleted by the lookup — the raw session store did change on
a rejected request. -/
theorem claim_C10_counterexample :
    ((Server.verifyRequest (fun _ _ _ _ _ => true) 10500 sampleInput
        sampleExpiredStore).1.valid = false) ∧
    (Server.verifyRequest (fun _ _ _ _ _ => true) 10500 sampleInput
        sampleExpiredStore).2.store ≠ sampleExpiredStore.store := by
  decide

/-- Witness for C10 at concrete inputs: the rejected expired-session request
leaves the live-session view unchanged. -/
theorem claim_C10_witness :
    Store.sessionView 10500 "s1"
        (Server.verifyRequest (fun _ _ _ _ _ => true) 10500 sampleInput
          sampleExpiredStore).2
      = Store.sessionView 10500 "s1" sampleExpiredStore :=
  (claim_C10 (fun _ _ _ _ _ => true) 10500 sampleInput sampleExpiredStore
    (by decide)).1 "s1"

end PAN
